import Mathlib

/-!
Order lifecycle and cart workflow of the B3 store backend.

A shallow embedding of `server/src/controllers/order.controller.js` and
`server/src/controllers/user.controller.js` (with the account schema of
`server/src/models/user.model.js`), followed by theorems about order creation,
order status updates, notification templating and cart management.

Conventions of the embedding:

* request bodies are JSON values (`JsVal`); a JavaScript number is an IEEE 754
  binary64 value, a finite one given by its exact rational value, and the arithmetic
  of the code (`total / 100`, `Math.floor`, `$inc`) rounds as binary64 does;
* the two stores are lists of documents inside a `World`; every store call of a
  handler may reject, which the per-request environment `Env` decides;
* a handler is a function from the environment, the request and the world to an
  `Outcome`: the HTTP response, the world afterwards and the result of the
  notification call, if one was made. `console` output is not modelled.
-/

namespace B3

/-! ## JavaScript numbers -/

/-- Rounding of a rational to the nearest integer, a tie going to the even one. -/
def roundHalfEven (r : ℚ) : ℤ :=
  if r - ⌊r⌋ < 1 / 2 then ⌊r⌋
  else if 1 / 2 < r - ⌊r⌋ then ⌊r⌋ + 1
  else if ⌊r⌋ % 2 = 0 then ⌊r⌋
  else ⌊r⌋ + 1

/-- Exponent of the unit in the last place of the binary64 format at `q`: 52 below the
binade of `q`, and never below -1074, the exponent of the subnormal numbers. -/
def ulpExp (q : ℚ) : ℤ :=
  max (Int.log 2 |q| - 52) (-1074)

/-- Rounding to the nearest multiple of the unit in the last place, ties to even: the
IEEE 754 binary64 rounding with the exponent unbounded above. -/
def roundToPrecision (q : ℚ) : ℚ :=
  roundHalfEven (q / 2 ^ ulpExp q) * 2 ^ ulpExp q

/-- The rational `q` is a finite binary64 value: an integer of fewer than 54 bits
times a power of two with exponent from -1074 to 971. -/
def isDouble (q : ℚ) : Prop :=
  ∃ m e : ℤ, |m| < 2 ^ 53 ∧ -1074 ≤ e ∧ e ≤ 971 ∧ q = m * 2 ^ e

/-- A JavaScript number other than `NaN`: a finite double, given by its exact value,
or an infinity. These are the numbers `JSON.parse` returns (a literal such as `1e999`
is read as `Infinity`). The two zeros are one value here, as they are for `===`, for
`!` and in JSON text. A value that arrives in a request is a double; the operations
below return doubles. -/
inductive JsNum where
  | fin (q : ℚ)
  | posInf
  | negInf
  deriving DecidableEq

instance (n : ℕ) : OfNat JsNum n := ⟨JsNum.fin n⟩

/-- Rounding of an exact result to a double: round to nearest, ties to even, a result
of magnitude `2 ^ 1024` or more becoming an infinity. -/
def roundDouble (q : ℚ) : JsNum :=
  if 2 ^ 1024 ≤ roundToPrecision q then JsNum.posInf
  else if roundToPrecision q ≤ -2 ^ 1024 then JsNum.negInf
  else JsNum.fin (roundToPrecision q)

/-- The expression `a / 100` on doubles. -/
def JsNum.div100 : JsNum → JsNum
  | JsNum.fin q => roundDouble (q / 100)
  | JsNum.posInf => JsNum.posInf
  | JsNum.negInf => JsNum.negInf

/-- The function `Math.floor`; the floor of a double is a double. -/
def Math.floor : JsNum → JsNum
  | JsNum.fin q => JsNum.fin ⌊q⌋
  | JsNum.posInf => JsNum.posInf
  | JsNum.negInf => JsNum.negInf

/-- A stored number: `NaN` or a `JsNum`. -/
inductive JsNumber where
  | nan
  | of (n : JsNum)
  deriving DecidableEq

instance (n : ℕ) : OfNat JsNumber n := ⟨JsNumber.of (JsNum.fin n)⟩

/-- The update `$inc` of a stored number by a number: the sum as doubles. Opposite
infinities add up to `NaN`, and `NaN` stays `NaN`. The integer encodings the store
may use for small whole numbers are not modelled. -/
def JsNumber.inc : JsNumber → JsNum → JsNumber
  | JsNumber.nan, _ => JsNumber.nan
  | JsNumber.of (JsNum.fin a), JsNum.fin b => JsNumber.of (roundDouble (a + b))
  | JsNumber.of (JsNum.fin _), JsNum.posInf => JsNumber.of JsNum.posInf
  | JsNumber.of (JsNum.fin _), JsNum.negInf => JsNumber.of JsNum.negInf
  | JsNumber.of JsNum.posInf, JsNum.negInf => JsNumber.nan
  | JsNumber.of JsNum.posInf, _ => JsNumber.of JsNum.posInf
  | JsNumber.of JsNum.negInf, JsNum.posInf => JsNumber.nan
  | JsNumber.of JsNum.negInf, _ => JsNumber.of JsNum.negInf

/-- The comparison `a <= b` of two numbers other than `NaN`. -/
def JsNum.le : JsNum → JsNum → Prop
  | JsNum.negInf, _ => True
  | _, JsNum.posInf => True
  | JsNum.fin a, JsNum.fin b => a ≤ b
  | _, _ => False

/-- The comparison `a <= b` of two stored numbers; it fails when either is `NaN`. -/
def JsNumber.le : JsNumber → JsNumber → Prop
  | JsNumber.of a, JsNumber.of b => a.le b
  | _, _ => False

/-! ## JavaScript values -/

/-- A JSON value as `express.json()` hands it to a handler; `undefined` stands for
an absent property. -/
inductive JsVal where
  | undefined
  | null
  | bool (b : Bool)
  | num (n : JsNum)
  | str (s : String)
  | arr (xs : List JsVal)
  | obj (fields : List (String × JsVal))

namespace JsVal

/-- JavaScript `ToBoolean`: what `!v` negates. -/
def truthy : JsVal → Bool
  | undefined => false
  | null => false
  | bool b => b
  | num q => q != 0
  | str s => s != ""
  | arr _ => true
  | obj _ => true

/-- The test `Array.isArray(v)`. -/
def isArray : JsVal → Bool
  | arr _ => true
  | _ => false

/-- The test `typeof v === 'number'`. -/
def typeofNumber : JsVal → Bool
  | num _ => true
  | _ => false

/-- The test `typeof v === 'string'`. -/
def typeofString : JsVal → Bool
  | str _ => true
  | _ => false

/-- The elements of an array; read only behind an `Array.isArray` guard. -/
def asArr : JsVal → List JsVal
  | arr xs => xs
  | _ => []

/-- The number held by a value; read only behind a `typeof … === 'number'` guard. -/
def asNum : JsVal → JsNum
  | num q => q
  | _ => 0

/-- The string held by a value; read only behind a guard that makes it a string. -/
def asStr : JsVal → String
  | str s => s
  | _ => ""

/-- The test `v === s` against a string literal `s`. -/
def isStr (v : JsVal) (s : String) : Bool :=
  match v with
  | str t => t == s
  | _ => false

/-- Property read `v[key]` on a truthy value: an own property of a parsed object (which
lists each key once), `undefined` on anything else. -/
def get (v : JsVal) (key : String) : JsVal :=
  match v with
  | obj fields =>
    match fields.find? (fun kv => kv.1 == key) with
    | some kv => kv.2
    | none => undefined
  | _ => undefined

end JsVal

/-- The test `xs.includes(v)` for an array literal of strings: only a string value
equal to one of the entries is included. -/
def includes (xs : List String) (v : JsVal) : Bool :=
  match v with
  | JsVal.str s => xs.contains s
  | _ => false

/-- ECMAScript `WhiteSpace` and `LineTerminator` code points, the characters that
`String.prototype.trim` strips. -/
def isJsWhiteSpace (c : Char) : Bool :=
  c.val == 0x09 || c.val == 0x0A || c.val == 0x0B || c.val == 0x0C || c.val == 0x0D ||
  c.val == 0x20 || c.val == 0xA0 || c.val == 0x1680 ||
  (0x2000 ≤ c.val && c.val ≤ 0x200A) ||
  c.val == 0x2028 || c.val == 0x2029 || c.val == 0x202F || c.val == 0x205F ||
  c.val == 0x3000 || c.val == 0xFEFF

/-- The method `s.trim()`. -/
def jsTrim (s : String) : String :=
  String.mk ((s.toList.dropWhile isJsWhiteSpace).reverse.dropWhile isJsWhiteSpace).reverse

/-- The call `s.slice(-n)`: the last `n` characters of `s`, all of `s` when it is
shorter. -/
def jsSliceLast (n : Nat) (s : String) : String :=
  String.mk (s.toList.drop (s.toList.length - n))

/-! ## Data model -/

/-- A cart line of `user.model.js`: `cartItem = new Schema({ barcode: Number })`.
The sub-document bookkeeping (`_id`, timestamps) is left out. -/
structure CartItem where
  barcode : JsNum
  deriving DecidableEq

/-- An account document of `user.model.js`. The `createdAt`/`updatedAt` pair that
`{ timestamps: true }` maintains is left out. -/
structure User where
  clerkId : String
  email : String
  profilePicture : String
  cartItem : List CartItem
  coins : JsNumber
  deriving DecidableEq

/-- Modelled from the spec: the Order schema (`server/src/models/order.model.js`) is
not among the sources. The fields are the ones `createOrder` writes and
`updateOrderStatus` reads, with `created_at`/`updated_at` from the data model of the
specification; `_id` is a string, as `_id.slice(-6).toUpperCase()` uses it. -/
structure Order where
  _id : String
  userId : Option String
  userEmail : String
  items : List JsVal
  total : JsNum
  deliveryOption : String
  paymentOption : String
  address : String
  phoneNumber : String
  status : String
  createdAt : Nat
  updatedAt : Nat

/-- The account store and the order store. -/
structure World where
  users : List User
  orders : List Order

/-- An error thrown by a store call or by the notification provider. -/
structure JsError where
  code : Option Nat
  message : String
  deriving DecidableEq

/-- The arguments of one `client.messages.create` call. The fields `sender` and
`recipient` are the properties `from` and `to`. -/
structure SmsRequest where
  body : String
  sender : String
  recipient : String
  deriving DecidableEq

/-- What one call of `sendSMSNotification` did. -/
inductive SmsResult where
  | notConfigured (log : String)
  | sent (req : SmsRequest)
  | failed (req : SmsRequest) (err : JsError)
  deriving DecidableEq

/-- Everything a request takes from outside the two stores: the clock, the id the
order store gives a new document, which store calls reject (numbered from 0 in the
order the handler makes them), the notification configuration of `process.env`, the
answer of the notification provider, and the rendering of a number inside a template
literal. -/
structure Env where
  now : Nat
  newId : String
  storeFault : Nat → Option JsError
  TWILIO_ACCOUNT_SID : Option String
  TWILIO_AUTH_TOKEN : Option String
  TWILIO_PHONE_NUMBER : Option String
  twilioFault : SmsRequest → Option JsError
  numberToString : JsNum → String

/-- Truthiness of a string that may be absent (`process.env.NAME`, `email`): it is
present and not empty. -/
def isSet : Option String → Bool
  | some s => s != ""
  | none => false

/-- A JSON response body. -/
inductive Body where
  | error (error : String)
  | errorDetails (error details : String)
  | message (message : String)
  | messageUser (message : String) (user : Option User)
  | order (order : Order)
  | orderCreated (order : Order) (coinsEarned : JsNum)

/-- An HTTP response: `res.status(status).json(body)`. -/
structure Response where
  status : Nat
  body : Body

/-- The result of handling one request. -/
structure Outcome where
  res : Response
  world : World
  sms : Option SmsResult

/-! ## Store operations -/

/-- Replace the first document that satisfies `p` by its image under `f`. -/
def updateFirst {α : Type} (p : α → Bool) (f : α → α) : List α → List α
  | [] => []
  | x :: xs => if p x then f x :: xs else x :: updateFirst p f xs

/-- The call `User.findOne(filter)`, the `k`-th store call of its request. -/
def User.findOne (env : Env) (k : Nat) (p : User → Bool) (w : World) :
    Except JsError (Option User) :=
  match env.storeFault k with
  | some e => Except.error e
  | none => Except.ok (w.users.find? p)

/-- The call `User.findOneAndUpdate(filter, update)`: the first matching account is
updated in one step, and the updated document is returned (`null` without a
match). -/
def User.findOneAndUpdate (env : Env) (k : Nat) (p : User → Bool) (f : User → User)
    (w : World) : Except JsError (Option User × World) :=
  match env.storeFault k with
  | some e => Except.error e
  | none =>
    match w.users.find? p with
    | none => Except.ok (none, w)
    | some u => Except.ok (some (f u), { w with users := updateFirst p f w.users })

/-- The call `order.save()`: the document is appended to the order store. -/
def Order.save (env : Env) (k : Nat) (o : Order) (w : World) :
    Except JsError (Order × World) :=
  match env.storeFault k with
  | some e => Except.error e
  | none => Except.ok (o, { w with orders := w.orders ++ [o] })

/-- The call `Order.findByIdAndUpdate(id, update, { new: true })`. -/
def Order.findByIdAndUpdate (env : Env) (k : Nat) (id : String) (f : Order → Order)
    (w : World) : Except JsError (Option Order × World) :=
  match env.storeFault k with
  | some e => Except.error e
  | none =>
    match w.orders.find? (fun o => o._id == id) with
    | none => Except.ok (none, w)
    | some o =>
      Except.ok (some (f o), { w with orders := updateFirst (fun o => o._id == id) f w.orders })

/-! ## Notification templates and dispatch -/

/-- Template `smsTemplates.orderPlaced`. -/
def smsTemplates.orderPlaced (numberToString : JsNum → String) (orderNumber : String)
    (total : JsNum) : String :=
  "🎉 Thank you for shopping with Balaji Bachat Bazar!\n\n" ++
  "📋 Order #" ++ orderNumber ++ "\n" ++
  "💰 Total: ₹" ++ numberToString total ++ "\n" ++
  "📱 Track your order in the app\n\n" ++
  "We\x27re preparing your order with care!"

/-- Template `smsTemplates.orderConfirmed`. -/
def smsTemplates.orderConfirmed (orderNumber : String) : String :=
  "✅ Great news! Your order #" ++ orderNumber ++ " has been confirmed.\n\n" ++
  "👨‍🍳 Our team is now preparing your items.\n" ++
  "⏰ Estimated time: 15-20 minutes\n\n" ++
  "Thank you for choosing B3 Store!"

/-- Template `smsTemplates.orderPreparing`. -/
def smsTemplates.orderPreparing (orderNumber : String) : String :=
  "👨‍🍳 Your order #" ++ orderNumber ++ " is being prepared with love!\n\n" ++
  "🕐 Almost ready - just a few more minutes\n" ++
  "📱 You\x27ll be notified when it\x27s ready"

/-- Template `smsTemplates.orderReady`. -/
def smsTemplates.orderReady (orderNumber : String) (deliveryType : String) : String :=
  if deliveryType == "delivery" then
    "🚚 Your order #" ++ orderNumber ++ " is ready and out for delivery!\n\n" ++
    "📍 Our delivery partner is on the way\n" ++
    "⏰ Expected delivery: 10-15 minutes\n\n" ++
    "Please keep your phone handy!"
  else
    "✅ Your order #" ++ orderNumber ++ " is ready for pickup!\n\n" ++
    "📍 Please visit our store to collect your order\n" ++
    "🕐 Store hours: 9 AM - 9 PM\n\n" ++
    "Thank you for choosing B3 Store!"

/-- Template `smsTemplates.orderDelivered`. -/
def smsTemplates.orderDelivered (orderNumber : String) : String :=
  "🎉 Your order #" ++ orderNumber ++ " has been delivered!\n\n" ++
  "😊 Hope you enjoy your purchase\n" ++
  "⭐ Rate your experience in the app\n\n" ++
  "Thank you for shopping with B3 Store!"

/-- Template `smsTemplates.orderCancelled`. -/
def smsTemplates.orderCancelled (orderNumber : String) : String :=
  "❌ We\x27re sorry! Your order #" ++ orderNumber ++ " has been cancelled.\n\n" ++
  "💰 Refund will be processed within 3-5 business days\n" ++
  "📞 Contact us for any queries\n\n" ++
  "We apologize for the inconvenience."

/-- The function `sendSMSNotification`. Its whole body is inside `try … catch`, and
the handler only logs, so the call never rejects: a rejection of the provider
becomes the value `failed`. -/
def sendSMSNotification (env : Env) (phoneNumber message : String) : SmsResult :=
  if !isSet env.TWILIO_ACCOUNT_SID || !isSet env.TWILIO_AUTH_TOKEN then
    SmsResult.notConfigured "SMS not sent - Twilio credentials not configured"
  else if !isSet env.TWILIO_PHONE_NUMBER then
    SmsResult.notConfigured "SMS not sent - Twilio phone number not configured"
  else
    let req : SmsRequest :=
      { body := message
        sender := env.TWILIO_PHONE_NUMBER.getD ""
        recipient := if "+".isPrefixOf phoneNumber then phoneNumber else "+91" ++ phoneNumber }
    match env.twilioFault req with
    | none => SmsResult.sent req
    | some error => SmsResult.failed req error

/-- The method `s.toUpperCase()` on the ASCII letters; other characters, which the
ids of the store do not contain, are kept. -/
def jsToUpperCase (s : String) : String :=
  String.mk (s.toList.map Char.toUpper)

/-- The order reference `_id.slice(-6).toUpperCase()`. -/
def orderNumberOf (id : String) : String :=
  jsToUpperCase (jsSliceLast 6 id)

/-! ## Order creation -/

/-- The destructured `req.body` of `POST /api/orders`. -/
structure OrderBody where
  items : JsVal
  total : JsVal
  deliveryOption : JsVal
  paymentOption : JsVal
  address : JsVal
  phoneNumber : JsVal

/-- The `catch` block of `createOrder`. -/
def createOrderFailed (error : JsError) (w : World) : Outcome :=
  { res := { status := 500
             body := Body.errorDetails "Server error while creating order." error.message }
    world := w
    sms := none }

/-- An early `return res.status(status).json({ error })`. -/
def reject (status : Nat) (error : String) (w : World) : Outcome :=
  { res := { status := status, body := Body.error error }, world := w, sms := none }

/-- The document `new Order({ … })` that `createOrder` builds for the account `user`. -/
def newOrder (env : Env) (userId : Option String) (user : User) (body : OrderBody) : Order :=
  { _id := env.newId
    userId := userId
    userEmail := user.email
    items := body.items.asArr
    total := body.total.asNum
    deliveryOption := body.deliveryOption.asStr
    paymentOption := body.paymentOption.asStr
    address :=
      if body.deliveryOption.isStr "delivery" then body.address.asStr else "Store Pickup"
    phoneNumber := body.phoneNumber.asStr
    status := "pending"
    createdAt := env.now
    updatedAt := env.now }

/-- The single update document `{ $set: { cartItem: [] }, $inc: { coins: coinsEarned } }`
applied to an account. -/
def clearCartAndCredit (coinsEarned : JsNum) (u : User) : User :=
  { u with cartItem := [], coins := u.coins.inc coinsEarned }

/-- The part of `createOrder` after the validation guards: account lookup, order
persistence, the combined account update, the notification and the response. -/
def placeOrder (env : Env) (userId : Option String) (body : OrderBody) (w : World) :
    Outcome :=
  match User.findOne env 0 (fun u => some u.clerkId == userId) w with
  | Except.error error => createOrderFailed error w
  | Except.ok none => reject 404 "User not found" w
  | Except.ok (some user) =>
    let order := newOrder env userId user body
    match Order.save env 1 order w with
    | Except.error error => createOrderFailed error w
    | Except.ok (savedOrder, w1) =>
      let coinsEarned : JsNum := Math.floor body.total.asNum.div100
      match User.findOneAndUpdate env 2 (fun u => some u.clerkId == userId)
          (clearCartAndCredit coinsEarned) w1 with
      | Except.error error => createOrderFailed error w1
      | Except.ok (none, w2) =>
        createOrderFailed
          { code := none, message := "Failed to update user after order creation" } w2
      | Except.ok (some _, w2) =>
        let orderNumber := orderNumberOf savedOrder._id
        let smsMessage :=
          smsTemplates.orderPlaced env.numberToString orderNumber body.total.asNum
        { res := { status := 201, body := Body.orderCreated savedOrder coinsEarned }
          world := w2
          sms := some (sendSMSNotification env body.phoneNumber.asStr smsMessage) }

/-- The handler `createOrder`; `userId` is `getAuth(req).userId`. The six guards come
first, in the order of the source, then `placeOrder`. -/
def createOrder (env : Env) (userId : Option String) (body : OrderBody) (w : World) :
    Outcome :=
  if !body.items.truthy || !body.items.isArray || body.items.asArr.length == 0 then
    reject 400 "Items are required and must be a non-empty array" w
  else if !body.total.truthy || !body.total.typeofNumber then
    reject 400 "Total is required and must be a number" w
  else if !body.deliveryOption.truthy ||
      !includes ["delivery", "takeaway"] body.deliveryOption then
    reject 400 "Valid delivery option is required" w
  else if !body.paymentOption.truthy || !includes ["online", "cod"] body.paymentOption then
    reject 400 "Valid payment option is required" w
  else if !body.phoneNumber.truthy || !body.phoneNumber.typeofString then
    reject 400 "Phone number is required" w
  else if body.deliveryOption.isStr "delivery" &&
      (!body.address.truthy || !body.address.typeofString ||
        jsTrim body.address.asStr == "") then
    reject 400 "Address is required for delivery orders" w
  else placeOrder env userId body w

/-! ## Order status updates -/

/-- The array `validStatuses` of `updateOrderStatus`. -/
def validStatuses : List String :=
  ["pending", "confirmed", "preparing", "ready", "delivered", "cancelled"]

/-- The `switch (status)` of `updateOrderStatus`, which starts from
`smsMessage = ''` and has no case for `pending`. -/
def statusMessage (status : String) (updatedOrder : Order) : String :=
  let orderNumber := orderNumberOf updatedOrder._id
  if status == "confirmed" then smsTemplates.orderConfirmed orderNumber
  else if status == "preparing" then smsTemplates.orderPreparing orderNumber
  else if status == "ready" then
    smsTemplates.orderReady orderNumber updatedOrder.deliveryOption
  else if status == "delivered" then smsTemplates.orderDelivered orderNumber
  else if status == "cancelled" then smsTemplates.orderCancelled orderNumber
  else ""

/-- The handler `updateOrderStatus`; `id` is `req.params.id` and `status` is
`req.body.status`. -/
def updateOrderStatus (env : Env) (id : String) (status : JsVal) (w : World) : Outcome :=
  if !includes validStatuses status then
    reject 400 "Invalid status" w
  else
    match Order.findByIdAndUpdate env 0 id
        (fun o => { o with status := status.asStr, updatedAt := env.now }) w with
    | Except.error _ => reject 500 "Server error while updating order status." w
    | Except.ok (none, w1) => reject 404 "Order not found" w1
    | Except.ok (some updatedOrder, w1) =>
      let smsMessage := statusMessage status.asStr updatedOrder
      { res := { status := 200, body := Body.order updatedOrder }
        world := w1
        sms :=
          if smsMessage != "" then
            some (sendSMSNotification env updatedOrder.phoneNumber smsMessage)
          else none }

/-! ## Cart management -/

/-- The destructured `req.body` of `PUT /api/users/cart`. The email is a string or
absent: a value of another type would be cast, or read as a query operator, by the
store layer, which is outside this model. -/
structure CartBody where
  cartItems : JsVal
  email : Option String

/-- The `for (const item of cartItems)` loop of `updateCart`, started with
`itemsToAdd`: `none` is the early `return` with status 400. The existence test reads
the cart of the account as it was loaded, not the lines collected so far. -/
def collectItemsToAdd (user : User) : List CartItem → List JsVal → Option (List CartItem)
  | itemsToAdd, [] => some itemsToAdd
  | itemsToAdd, item :: rest =>
    if item.truthy && (item.get "barcode").typeofNumber then
      let exists_ :=
        user.cartItem.any (fun existingItem => existingItem.barcode == (item.get "barcode").asNum)
      if !exists_ then
        collectItemsToAdd user (itemsToAdd ++ [{ barcode := (item.get "barcode").asNum }]) rest
      else collectItemsToAdd user itemsToAdd rest
    else none

/-- The `catch` block of `updateCart`. -/
def updateCartFailed (error : JsError) (w : World) : Outcome :=
  if error.code == some 11000 then
    reject 409 "One or more items (barcodes) already exist in the cart." w
  else reject 500 "Server error during cart update." w

/-- The update `{ $set: { cartItem: [] } }` applied to an account; `$unset` of the
array leaves the same document as far as this model reads it. -/
def clearCart (u : User) : User :=
  { u with cartItem := [] }

/-- The update `{ $push: { cartItem: { $each: itemsToAdd } } }` applied to an account. -/
def pushLines (itemsToAdd : List CartItem) (u : User) : User :=
  { u with cartItem := u.cartItem ++ itemsToAdd }

/-- The response of `updateCart` when nothing is appended. -/
def cartUnchanged (w : World) : Outcome :=
  { res := { status := 200
             body := Body.message
               "All provided items are already in the cart or no new items to add." }
    world := w
    sms := none }

/-- The handler `updateCart`. The update `$unset: { cartItem: 1 }` removes the array,
which an account document then reads as the empty list. -/
def updateCart (env : Env) (body : CartBody) (w : World) : Outcome :=
  if !body.cartItems.isArray then
    reject 400 "cartItems must be an array" w
  else if !isSet body.email then
    reject 400 "Email is required" w
  else
    match User.findOne env 0 (fun u => some u.email == body.email) w with
    | Except.error error => updateCartFailed error w
    | Except.ok none => reject 404 "User not found" w
    | Except.ok (some user) =>
      if body.cartItems.asArr.length == 0 then
        match User.findOneAndUpdate env 1 (fun u => some u.email == body.email)
            clearCart w with
        | Except.error error => updateCartFailed error w
        | Except.ok (_, w1) =>
          match User.findOneAndUpdate env 2 (fun u => some u.email == body.email)
              clearCart w1 with
          | Except.error error => updateCartFailed error w1
          | Except.ok (updatedUser, w2) =>
            { res := { status := 200
                       body := Body.messageUser "Cart cleared successfully" updatedUser }
              world := w2
              sms := none }
      else
        match collectItemsToAdd user [] body.cartItems.asArr with
        | none => reject 400 "Each cart item must have a valid \x27barcode\x27 (number)." w
        | some itemsToAdd =>
          if itemsToAdd.length == 0 then cartUnchanged w
          else
            match User.findOneAndUpdate env 1 (fun u => some u.email == body.email)
                (pushLines itemsToAdd) w with
            | Except.error error => updateCartFailed error w
            | Except.ok (none, w1) => reject 500 "Failed to update user cart." w1
            | Except.ok (some updatedUser, w1) =>
              { res := { status := 200
                         body := Body.messageUser "Cart updated successfully" (some updatedUser) }
                world := w1
                sms := none }

/-! ## Reading the stores -/

/-- The account that `User.findOne({ clerkId: userId })` selects. -/
def accountOf (w : World) (userId : Option String) : Option User :=
  w.users.find? (fun u => some u.clerkId == userId)

/-- The account that `User.findOne({ email })` selects. -/
def accountByEmail (w : World) (email : Option String) : Option User :=
  w.users.find? (fun u => some u.email == email)

/-- The JSON text of a number, as `res.json` writes it: an infinity is written
`null`. -/
def jsonOfNum : JsNum → JsVal
  | JsNum.fin q => JsVal.num (JsNum.fin q)
  | _ => JsVal.null

/-- The `coinsEarned` property of a response body as the client reads it, when the body
has one. -/
def Body.coinsEarned? : Body → Option JsVal
  | Body.orderCreated _ c => some (jsonOfNum c)
  | _ => none

/-- The order carried by a response body, when it has one. -/
def Body.order? : Body → Option Order
  | Body.orderCreated o _ => some o
  | Body.order o => some o
  | _ => none

/-- All six validation guards of `createOrder` let the body through. -/
def passesValidation (body : OrderBody) : Bool :=
  !(!body.items.truthy || !body.items.isArray || body.items.asArr.length == 0) &&
  !(!body.total.truthy || !body.total.typeofNumber) &&
  !(!body.deliveryOption.truthy || !includes ["delivery", "takeaway"] body.deliveryOption) &&
  !(!body.paymentOption.truthy || !includes ["online", "cod"] body.paymentOption) &&
  !(!body.phoneNumber.truthy || !body.phoneNumber.typeofString) &&
  !(body.deliveryOption.isStr "delivery" &&
      (!body.address.truthy || !body.address.typeofString ||
        jsTrim body.address.asStr == ""))

/-- The outcome of `createOrder` when the order is placed for the account `user`. -/
def orderPlaced (env : Env) (userId : Option String) (user : User) (body : OrderBody)
    (w : World) : Outcome :=
  { res := { status := 201
             body := Body.orderCreated (newOrder env userId user body)
                       (Math.floor body.total.asNum.div100) }
    world :=
      { users := updateFirst (fun u => some u.clerkId == userId)
                   (clearCartAndCredit (Math.floor body.total.asNum.div100)) w.users
        orders := w.orders ++ [newOrder env userId user body] }
    sms := some (sendSMSNotification env body.phoneNumber.asStr
             (smsTemplates.orderPlaced env.numberToString
               (orderNumberOf (newOrder env userId user body)._id) body.total.asNum)) }

/-- The lines `updateCart` appends for a request: one `{ barcode }` for each entry, in
request order, whose barcode no line of `cart` carries. -/
def newLines (cart : List CartItem) (items : List JsVal) : List CartItem :=
  items.filterMap (fun item =>
    if cart.any (fun existingItem => existingItem.barcode == (item.get "barcode").asNum)
    then none
    else some { barcode := (item.get "barcode").asNum })

/-- The outcome of `updateCart` when it appends `lines` to the cart of `user`. -/
def cartAppended (email : Option String) (user : User) (lines : List CartItem)
    (w : World) : Outcome :=
  { res := { status := 200
             body := Body.messageUser "Cart updated successfully"
               (some (pushLines lines user)) }
    world :=
      { w with
        users := updateFirst (fun u => some u.email == email) (pushLines lines) w.users }
    sms := none }

/-- The outcome of `updateCart` when it clears the cart of `user`. -/
def cartCleared (email : Option String) (user : User) (w : World) : Outcome :=
  { res := { status := 200
             body := Body.messageUser "Cart cleared successfully" (some (clearCart user)) }
    world :=
      { w with users := updateFirst (fun u => some u.email == email) clearCart w.users }
    sms := none }

/-- The text `text` contains `part` as a run of consecutive characters. -/
def textContains (text part : String) : Prop :=
  List.IsInfix part.toList text.toList

instance (text part : String) : Decidable (textContains text part) := by
  unfold textContains
  infer_instance

/-- No two lines of the cart carry the same barcode. -/
def cartUnique (cart : List CartItem) : Prop :=
  (cart.map (fun line => line.barcode)).Nodup

instance (cart : List CartItem) : Decidable (cartUnique cart) := by
  unfold cartUnique
  infer_instance

/-! ## Sample data -/

/-- An environment without store faults, with the notification provider configured
and answering; numbers are rendered by their integer part, which is exact for the
whole totals of the samples. -/
def sampleEnv : Env :=
  { now := 1000
    newId := "66b2f0a1c3d4e5f60718293a"
    storeFault := fun _ => none
    TWILIO_ACCOUNT_SID := some "AC0001"
    TWILIO_AUTH_TOKEN := some "token"
    TWILIO_PHONE_NUMBER := some "+15005550006"
    twilioFault := fun _ => none
    numberToString := fun n =>
      match n with
      | JsNum.fin q => toString (q.num / q.den)
      | JsNum.posInf => "Infinity"
      | JsNum.negInf => "-Infinity" }

/-- One account, with two lines in its cart and seven coins. -/
def sampleUser : User :=
  { clerkId := "user_1"
    email := "asha@example.com"
    profilePicture := ""
    cartItem := [{ barcode := 123 }, { barcode := 456 }]
    coins := 7 }

/-- A world with the sample account and no orders. -/
def sampleWorld : World :=
  { users := [sampleUser], orders := [] }

/-- The request of the example in the specification: one item, total 250, takeaway,
cash on delivery, no address. -/
def sampleBody : OrderBody :=
  { items := JsVal.arr [JsVal.obj [("barcode", JsVal.num 123), ("qty", JsVal.num 2)]]
    total := JsVal.num 250
    deliveryOption := JsVal.str "takeaway"
    paymentOption := JsVal.str "cod"
    address := JsVal.undefined
    phoneNumber := JsVal.str "9876543210" }

/-- The sample request as a delivery order whose address is a space, a tab and a line
feed. -/
def sampleBlankDelivery : OrderBody :=
  { sampleBody with deliveryOption := JsVal.str "delivery", address := JsVal.str " \t\n" }

/-- Three cart lines, the last two with the same barcode; 123 is in the sample cart,
789 is not. -/
def sampleCartItems : List JsVal :=
  [JsVal.obj [("barcode", JsVal.num 123)], JsVal.obj [("barcode", JsVal.num 789)],
    JsVal.obj [("barcode", JsVal.num 789)]]

/-- A cart request for the sample account with the three sample lines. -/
def sampleCartBody : CartBody :=
  { cartItems := JsVal.arr sampleCartItems, email := some "asha@example.com" }

/-- A cart request for the sample account with no lines. -/
def sampleClearBody : CartBody :=
  { cartItems := JsVal.arr [], email := some "asha@example.com" }

/-- A delivery order of the sample account, in state `'preparing'`. -/
def sampleOrder : Order :=
  { _id := "66b2f0a1c3d4e5f60718293a"
    userId := some "user_1"
    userEmail := "asha@example.com"
    items := [JsVal.obj [("barcode", JsVal.num 123), ("qty", JsVal.num 2)]]
    total := 250
    deliveryOption := "delivery"
    paymentOption := "cod"
    address := "12 MG Road"
    phoneNumber := "9876543210"
    status := "preparing"
    createdAt := 900
    updatedAt := 950 }

/-- A world with the sample account and the sample order. -/
def sampleOrderWorld : World :=
  { users := [sampleUser], orders := [sampleOrder] }

/-- The sample environment with a notification provider that rejects every message. -/
def sampleFailingEnv : Env :=
  { sampleEnv with
    twilioFault := fun _ => some { code := some 21211, message := "Invalid phone number" } }

/-- The sample request with the total -250: it passes every guard of `createOrder`,
which test the total only for being a number other than 0. -/
def sampleNegativeBody : OrderBody :=
  { sampleBody with total := JsVal.num (JsNum.fin (-250)) }

/-- The order that `Order.findByIdAndUpdate(id, …)` selects. -/
def orderById (w : World) (id : String) : Option Order :=
  w.orders.find? (fun o => o._id == id)

/-- The update document `{ status, updatedAt: new Date() }` applied to an order. -/
def setStatus (status : String) (now : Nat) (o : Order) : Order :=
  { o with status := status, updatedAt := now }

/-- Position of a status in the order pending, confirmed, preparing, ready, delivered
of the specification; `cancelled` and any other string have no position. -/
def statusRank (status : String) : Option Nat :=
  if status == "pending" then some 0
  else if status == "confirmed" then some 1
  else if status == "preparing" then some 2
  else if status == "ready" then some 3
  else if status == "delivered" then some 4
  else none

/-- The status `a` comes before the status `b` in the order of `statusRank`. -/
def comesBefore (a b : String) : Bool :=
  match statusRank a, statusRank b with
  | some i, some j => decide (i < j)
  | _, _ => false

/-- The request does not carry the property, or carries it as `null`. -/
def JsVal.absent : JsVal → Bool
  | JsVal.undefined => true
  | JsVal.null => true
  | _ => false

/-- The value is a string that `trim` empties: the empty string or white space only. -/
def JsVal.blank : JsVal → Bool
  | JsVal.str s => jsTrim s == ""
  | _ => false

/-- The preconditions of order creation in the words of the specification, to be
compared with `passesValidation`, which is taken from the code: `items` is a non-empty
sequence, `total` is a number, the two modes are among their values, the phone is
present and non-empty, and for a delivery the address is present and not blank. -/
def meetsListedPreconditions (body : OrderBody) : Bool :=
  (body.items.isArray && body.items.asArr.length != 0) &&
  body.total.typeofNumber &&
  includes ["delivery", "takeaway"] body.deliveryOption &&
  includes ["online", "cod"] body.paymentOption &&
  !(body.phoneNumber.absent || body.phoneNumber.isStr "") &&
  !(body.deliveryOption.isStr "delivery" && (body.address.absent || body.address.blank))

/-- The sample request with the total 0. -/
def sampleZeroTotalBody : OrderBody :=
  { sampleBody with total := JsVal.num 0 }

/-- The sample request with the phone sent as the number 9876543210. -/
def sampleNumericPhoneBody : OrderBody :=
  { sampleBody with phoneNumber := JsVal.num 9876543210 }

/-- The sample request with the total 900719925474099328, a double whose quotient by
100 lies above `2 ^ 53`. -/
def sampleHugeBody : OrderBody :=
  { sampleBody with total := JsVal.num (JsNum.fin 900719925474099328) }

/-- The sample request with the total `10 ^ 21`. -/
def sampleSextillionBody : OrderBody :=
  { sampleBody with total := JsVal.num (JsNum.fin 1000000000000000000000) }

/-- The sample request with the total `Infinity`, which `JSON.parse` returns for the
text `1e999`. -/
def sampleInfiniteBody : OrderBody :=
  { sampleBody with total := JsVal.num JsNum.posInf }

/-- The sample takeaway request with the total 0 and an address supplied. -/
def sampleFreeTakeawayBody : OrderBody :=
  { sampleBody with total := JsVal.num 0, address := JsVal.str "12 MG Road" }

/-! # Theorems -/

/-! ## Lemmas on double arithmetic -/

theorem floor_le_roundHalfEven (r : ℚ) : ⌊r⌋ ≤ roundHalfEven r := by
  unfold roundHalfEven
  split_ifs <;> omega

theorem roundHalfEven_le (r : ℚ) : roundHalfEven r ≤ ⌊r⌋ + 1 := by
  unfold roundHalfEven
  split_ifs <;> omega

theorem roundHalfEven_intCast (z : ℤ) : roundHalfEven (z : ℚ) = z := by
  unfold roundHalfEven
  simp

theorem roundHalfEven_of_lt_half {r : ℚ} (h : r - ⌊r⌋ < 1 / 2) : roundHalfEven r = ⌊r⌋ := by
  unfold roundHalfEven
  rw [if_pos h]

theorem two_zpow_pos (e : ℤ) : (0 : ℚ) < 2 ^ e := by positivity

theorem ulpExp_ge (q : ℚ) : -1074 ≤ ulpExp q := le_max_right _ _

theorem ulpExp_ge_log (q : ℚ) : Int.log 2 |q| - 52 ≤ ulpExp q := le_max_left _ _

theorem ulpExp_cases (q : ℚ) : ulpExp q = Int.log 2 |q| - 52 ∨ ulpExp q = -1074 := by
  unfold ulpExp
  rcases le_total (Int.log 2 |q| - 52) (-1074) with h | h
  · right; exact max_eq_right h
  · left; exact max_eq_left h

theorem zpow_log_le_abs {q : ℚ} (hq : q ≠ 0) : (2 : ℚ) ^ Int.log 2 |q| ≤ |q| := by
  have h : ((2 : ℕ) : ℚ) ^ Int.log 2 |q| ≤ |q| :=
    Int.zpow_log_le_self (by norm_num) (abs_pos.mpr hq)
  simpa using h

theorem abs_lt_zpow_log_succ (q : ℚ) : |q| < (2 : ℚ) ^ (Int.log 2 |q| + 1) := by
  have h : |q| < ((2 : ℕ) : ℚ) ^ (Int.log 2 |q| + 1) :=
    Int.lt_zpow_succ_log_self (by norm_num) (|q|)
  simpa using h

/-- A double of magnitude at least `2 ^ (s + 52)`, and any double when `s ≤ -1074`, is
an integer multiple of `2 ^ s`. -/
theorem isDouble_multiple {d : ℚ} (hd : isDouble d) {s : ℤ}
    (h : (2 : ℚ) ^ (s + 52) ≤ |d| ∨ s ≤ -1074) : ∃ z : ℤ, d = z * 2 ^ s := by
  obtain ⟨m, e, hm, he1, _, rfl⟩ := hd
  have hse : s ≤ e := by
    rcases h with h | h
    · by_contra hlt
      push_neg at hlt
      have hm2 : |(m : ℚ)| < 2 ^ 53 := by
        have : ((|m| : ℤ) : ℚ) < ((2 ^ 53 : ℤ) : ℚ) := Int.cast_lt.mpr hm
        simpa using this
      have h1 : |(m : ℚ) * 2 ^ e| < 2 ^ 53 * 2 ^ e := by
        rw [abs_mul, abs_of_pos (two_zpow_pos e)]
        exact mul_lt_mul_of_pos_right hm2 (two_zpow_pos e)
      have h2 : (2 : ℚ) ^ 53 * 2 ^ e = 2 ^ (e + 53) := by
        rw [zpow_add₀ (by norm_num : (2 : ℚ) ≠ 0)]
        norm_num [mul_comm]
      have h3 : (2 : ℚ) ^ (e + 53) ≤ 2 ^ (s + 52) :=
        zpow_le_zpow_right₀ (by norm_num) (by omega)
      linarith
    · omega
  refine ⟨m * 2 ^ (e - s).toNat, ?_⟩
  have hsplit : (2 : ℚ) ^ e = 2 ^ (e - s).toNat * 2 ^ s := by
    rw [← zpow_natCast, ← zpow_add₀ (by norm_num : (2 : ℚ) ≠ 0)]
    congr 1
    rw [Int.toNat_of_nonneg (by omega)]
    ring
  rw [hsplit]
  push_cast
  ring

theorem isDouble_abs_lt {d : ℚ} (hd : isDouble d) : |d| < 2 ^ 1024 := by
  obtain ⟨m, e, hm, _, he2, rfl⟩ := hd
  have hm2 : |(m : ℚ)| < 2 ^ 53 := by
    have : ((|m| : ℤ) : ℚ) < ((2 ^ 53 : ℤ) : ℚ) := Int.cast_lt.mpr hm
    simpa using this
  rw [abs_mul, abs_of_pos (two_zpow_pos e)]
  have h1 : (2 : ℚ) ^ e ≤ 2 ^ (971 : ℤ) := zpow_le_zpow_right₀ (by norm_num) he2
  have h2 : |(m : ℚ)| * 2 ^ e < 2 ^ 53 * 2 ^ (971 : ℤ) :=
    mul_lt_mul hm2 h1 (two_zpow_pos e) (by positivity)
  have h3 : (2 : ℚ) ^ 53 * 2 ^ (971 : ℤ) = 2 ^ 1024 := by norm_num
  linarith

/-- A double is an integer multiple of the unit in its own last place. -/
theorem isDouble_multiple_ulp {d : ℚ} (hd : isDouble d) (h0 : d ≠ 0) :
    ∃ z : ℤ, d = z * 2 ^ ulpExp d := by
  apply isDouble_multiple hd
  rcases ulpExp_cases d with h | h
  · left
    rw [h]
    have : Int.log 2 |d| - 52 + 52 = Int.log 2 |d| := by ring
    rw [this]
    exact zpow_log_le_abs h0
  · right
    omega

theorem roundToPrecision_of_isDouble {d : ℚ} (hd : isDouble d) : roundToPrecision d = d := by
  by_cases h0 : d = 0
  · subst h0
    simp [roundToPrecision, roundHalfEven]
  · obtain ⟨z, hz⟩ := isDouble_multiple_ulp hd h0
    unfold roundToPrecision
    have hu := two_zpow_pos (ulpExp d)
    have hdiv : d / 2 ^ ulpExp d = (z : ℚ) := by
      rw [div_eq_iff hu.ne']
      exact hz
    rw [hdiv, roundHalfEven_intCast]
    exact hz.symm

/-- Rounding does not go below a double that the value is not below. -/
theorem le_roundToPrecision {d q : ℚ} (hd : isDouble d) (h : d ≤ q) :
    d ≤ roundToPrecision q := by
  have hu := two_zpow_pos (ulpExp q)
  have hfloor : ((⌊q / 2 ^ ulpExp q⌋ : ℤ) : ℚ) * 2 ^ ulpExp q ≤ roundToPrecision q := by
    unfold roundToPrecision
    apply mul_le_mul_of_nonneg_right _ hu.le
    exact_mod_cast floor_le_roundHalfEven _
  refine le_trans ?_ hfloor
  by_cases hmul : (2 : ℚ) ^ (ulpExp q + 52) ≤ |d| ∨ ulpExp q ≤ -1074
  · obtain ⟨z, hz⟩ := isDouble_multiple hd hmul
    rw [hz]
    apply mul_le_mul_of_nonneg_right _ hu.le
    have hzq : (z : ℚ) ≤ q / 2 ^ ulpExp q := by
      rw [le_div_iff₀ hu]
      rw [← hz]
      exact h
    exact_mod_cast Int.le_floor.mpr hzq
  · push_neg at hmul
    obtain ⟨hlt, hgt⟩ := hmul
    have he : ulpExp q = Int.log 2 |q| - 52 := by
      rcases ulpExp_cases q with h1 | h1
      · exact h1
      · omega
    have hL : ulpExp q + 52 = Int.log 2 |q| := by omega
    rw [hL] at hlt
    rcases lt_trichotomy q 0 with hq | hq | hq
    · exfalso
      have h1 := zpow_log_le_abs hq.ne
      have habs : |q| = -q := abs_of_neg hq
      have h2 : -d ≤ |d| := neg_le_abs d
      linarith
    · subst hq
      simp only [zero_div, Int.floor_zero, Int.cast_zero, zero_mul]
      exact h
    · have h1 := zpow_log_le_abs hq.ne'
      have habs : |q| = q := abs_of_pos hq
      have h2 : d ≤ |d| := le_abs_self d
      have h6 : ((2 ^ 52 : ℤ) : ℚ) * 2 ^ ulpExp q = 2 ^ Int.log 2 |q| := by
        rw [← hL, zpow_add₀ (by norm_num : (2 : ℚ) ≠ 0)]
        norm_num [mul_comm]
      have h3 : ((2 ^ 52 : ℤ) : ℚ) ≤ q / 2 ^ ulpExp q := by
        rw [le_div_iff₀ hu, h6]
        linarith
      have h4 : (2 ^ 52 : ℤ) ≤ ⌊q / 2 ^ ulpExp q⌋ := Int.le_floor.mpr h3
      have h5 : ((2 ^ 52 : ℤ) : ℚ) * 2 ^ ulpExp q
          ≤ ((⌊q / 2 ^ ulpExp q⌋ : ℤ) : ℚ) * 2 ^ ulpExp q := by
        apply mul_le_mul_of_nonneg_right _ hu.le
        exact_mod_cast h4
      calc d ≤ |d| := h2
        _ ≤ 2 ^ Int.log 2 |q| := hlt.le
        _ = ((2 ^ 52 : ℤ) : ℚ) * 2 ^ ulpExp q := h6.symm
        _ ≤ _ := h5

theorem roundHalfEven_neg (r : ℚ) : roundHalfEven (-r) = -roundHalfEven r := by
  by_cases hint : (⌊r⌋ : ℚ) = r
  · have h1 : roundHalfEven r = ⌊r⌋ := by
      rw [← hint, roundHalfEven_intCast, Int.floor_intCast]
    have h2 : -r = ((-⌊r⌋ : ℤ) : ℚ) := by
      push_cast
      rw [hint]
    rw [h2, roundHalfEven_intCast, h1]
  · have hlt : (⌊r⌋ : ℚ) < r := lt_of_le_of_ne (Int.floor_le r) hint
    have hlt2 : r < ⌊r⌋ + 1 := Int.lt_floor_add_one r
    have hfl : ⌊-r⌋ = -⌊r⌋ - 1 := by
      rw [Int.floor_eq_iff]
      push_cast
      constructor <;> linarith
    unfold roundHalfEven
    rw [hfl]
    push_cast
    by_cases h1 : r - ⌊r⌋ < 1 / 2
    · have h2 : ¬ (-r - (-(⌊r⌋ : ℚ) - 1) < 1 / 2) := by linarith
      have h3 : (1 : ℚ) / 2 < -r - (-(⌊r⌋ : ℚ) - 1) := by linarith
      rw [if_pos h1, if_neg h2, if_pos h3]
      ring
    · by_cases h2 : 1 / 2 < r - ⌊r⌋
      · have h3 : -r - (-(⌊r⌋ : ℚ) - 1) < 1 / 2 := by linarith
        rw [if_neg h1, if_pos h2, if_pos h3]
        ring
      · have h3 : ¬ (-r - (-(⌊r⌋ : ℚ) - 1) < 1 / 2) := by linarith
        have h4 : ¬ ((1 : ℚ) / 2 < -r - (-(⌊r⌋ : ℚ) - 1)) := by linarith
        rw [if_neg h1, if_neg h2, if_neg h3, if_neg h4]
        by_cases hev : ⌊r⌋ % 2 = 0
        · have hev2 : ¬ ((-⌊r⌋ - 1) % 2 = 0) := by omega
          rw [if_pos hev, if_neg hev2]
          ring
        · have hev2 : (-⌊r⌋ - 1) % 2 = 0 := by omega
          rw [if_neg hev, if_pos hev2]
          ring

theorem ulpExp_neg (q : ℚ) : ulpExp (-q) = ulpExp q := by
  unfold ulpExp
  rw [abs_neg]

theorem roundToPrecision_neg (q : ℚ) : roundToPrecision (-q) = -roundToPrecision q := by
  unfold roundToPrecision
  rw [ulpExp_neg, neg_div, roundHalfEven_neg]
  push_cast
  ring

theorem isDouble_neg {d : ℚ} (hd : isDouble d) : isDouble (-d) := by
  obtain ⟨m, e, hm, he1, he2, rfl⟩ := hd
  refine ⟨-m, e, by rwa [abs_neg], he1, he2, ?_⟩
  push_cast
  ring

/-- Rounding does not go above a double that the value is not above. -/
theorem roundToPrecision_le {d q : ℚ} (hd : isDouble d) (h : q ≤ d) :
    roundToPrecision q ≤ d := by
  have h1 := le_roundToPrecision (isDouble_neg hd) (neg_le_neg h)
  rw [roundToPrecision_neg] at h1
  linarith

theorem isDouble_zero : isDouble 0 :=
  ⟨0, 0, by norm_num, by norm_num, by norm_num, by norm_num⟩

/-- An integer of magnitude at most `2 ^ 53` is a double. -/
theorem isDouble_intCast {z : ℤ} (hz : |z| ≤ 2 ^ 53) : isDouble (z : ℚ) := by
  by_cases h : |z| < 2 ^ 53
  · exact ⟨z, 0, h, by norm_num, by norm_num, by simp⟩
  · have heq : |z| = 2 ^ 53 := le_antisymm hz (not_lt.mp h)
    rcases abs_eq (by norm_num : (0 : ℤ) ≤ 2 ^ 53) |>.mp heq with h1 | h1
    · refine ⟨2 ^ 52, 1, by norm_num, by norm_num, by norm_num, ?_⟩
      rw [h1]
      norm_num
    · refine ⟨-2 ^ 52, 1, by norm_num, by norm_num, by norm_num, ?_⟩
      rw [h1]
      norm_num

/-- The rounding of an integer is an integer. -/
theorem roundToPrecision_intCast (z : ℤ) : ∃ n : ℤ, roundToPrecision (z : ℚ) = n := by
  unfold roundToPrecision
  rcases le_or_lt (ulpExp (z : ℚ)) 0 with he | he
  · have hpow : (2 : ℚ) ^ ulpExp (z : ℚ) = ((2 ^ (-ulpExp (z : ℚ)).toNat : ℕ) : ℚ)⁻¹ := by
      push_cast
      rw [← zpow_natCast, Int.toNat_of_nonneg (by omega), zpow_neg, inv_inv]
    have hdiv : (z : ℚ) / 2 ^ ulpExp (z : ℚ)
        = ((z * 2 ^ (-ulpExp (z : ℚ)).toNat : ℤ) : ℚ) := by
      rw [hpow]
      push_cast
      rw [div_inv_eq_mul]
    rw [hdiv, roundHalfEven_intCast, hpow]
    refine ⟨z, ?_⟩
    push_cast
    have hne : ((2 : ℚ) ^ (-ulpExp (z : ℚ)).toNat) ≠ 0 := by positivity
    field_simp
  · refine ⟨roundHalfEven ((z : ℚ) / 2 ^ ulpExp (z : ℚ)) * 2 ^ (ulpExp (z : ℚ)).toNat, ?_⟩
    push_cast
    rw [← zpow_natCast, Int.toNat_of_nonneg he.le]


theorem log_lt_of_abs_lt {q : ℚ} {n : ℤ} (hn : 0 < n) (h : |q| < 2 ^ n) : Int.log 2 |q| < n := by
  by_cases h0 : q = 0
  · subst h0
    simp [Int.log_zero_right, hn]
  · have h1 : |q| < ((2 : ℕ) : ℚ) ^ n := by simpa using h
    exact (Int.lt_zpow_iff_log_lt (by norm_num) (abs_pos.mpr h0)).mp h1

theorem le_log_of_le_abs {q : ℚ} {n : ℤ} (h : (2 : ℚ) ^ n ≤ |q|) : n ≤ Int.log 2 |q| := by
  have hpos : 0 < |q| := lt_of_lt_of_le (two_zpow_pos n) h
  have h1 : ((2 : ℕ) : ℚ) ^ n ≤ |q| := by simpa using h
  exact (Int.zpow_le_iff_le_log (by norm_num) hpos).mp h1

/-- Below `2 ^ 44` the quotient has a unit in the last place of at most `2 ^ (-9)`. -/
theorem ulpExp_le_of_abs_lt {q : ℚ} (h : |q| < 2 ^ (44 : ℤ)) : ulpExp q ≤ -9 := by
  have hL := log_lt_of_abs_lt (by norm_num) h
  unfold ulpExp
  exact max_le (by omega) (by norm_num)

theorem roundToPrecision_div100_lt {x : ℚ} (hx : isDouble x)
    (hlo : -10 ^ 15 ≤ x) (hhi : x ≤ 10 ^ 15)
    (hneg : x < 0 → x ≤ -(2 : ℚ) ^ (-1000 : ℤ)) :
    roundToPrecision (x / 100) < ⌊x / 100⌋ + 1 := by
  set q : ℚ := x / 100 with hq
  have hxq : x = 100 * q := by rw [hq]; ring
  have habsq : |q| < 2 ^ (44 : ℤ) := by
    rw [abs_lt]
    constructor
    · have : (-(2 : ℚ) ^ (44 : ℤ)) < -10 ^ 15 / 100 := by norm_num
      have h2 : (-10 ^ 15 : ℚ) / 100 ≤ q := by rw [hq]; gcongr
      linarith
    · have : (10 ^ 15 : ℚ) / 100 < 2 ^ (44 : ℤ) := by norm_num
      have h2 : q ≤ (10 ^ 15 : ℚ) / 100 := by rw [hq]; gcongr
      linarith
  have he := ulpExp_le_of_abs_lt habsq
  set e : ℤ := ulpExp q with hedef
  have hu : (0 : ℚ) < 2 ^ e := two_zpow_pos e
  -- the inverse of the unit is the integer `P`
  set P : ℤ := 2 ^ (-e).toNat with hP
  have hPpos : (0 : ℚ) < (P : ℚ) := by rw [hP]; push_cast; positivity
  have hPu : (P : ℚ) * 2 ^ e = 1 := by
    rw [hP]
    push_cast
    rw [← zpow_natCast, Int.toNat_of_nonneg (by omega), ← zpow_add₀ (by norm_num : (2 : ℚ) ≠ 0),
      show -e + e = 0 by ring, zpow_zero]
  have hdiv : q / 2 ^ e = q * P := by
    rw [div_eq_iff hu.ne', mul_assoc, hPu, mul_one]
  set K : ℤ := ⌊q⌋ + 1 with hK
  have hqK : q < (K : ℚ) := by
    rw [hK]; push_cast; exact Int.lt_floor_add_one q
  have hfl : ⌊q * P⌋ < K * P := by
    rw [Int.floor_lt]
    push_cast
    exact mul_lt_mul_of_pos_right hqK hPpos
  -- it suffices to bound the rounded multiple of the unit
  suffices hr : roundHalfEven (q * P) ≤ K * P - 1 by
    have h1 : ((roundHalfEven (q * P) : ℤ) : ℚ) ≤ ((K * P - 1 : ℤ) : ℚ) := Int.cast_le.mpr hr
    have h2 : roundToPrecision q = (roundHalfEven (q * P) : ℚ) * 2 ^ e := by
      unfold roundToPrecision
      rw [← hedef, hdiv]
    have h3 : ((K * P - 1 : ℤ) : ℚ) * 2 ^ e = K - 2 ^ e := by
      push_cast
      rw [sub_mul, mul_assoc, hPu]
      ring
    have h4 : (roundHalfEven (q * P) : ℚ) * 2 ^ e ≤ ((K * P - 1 : ℤ) : ℚ) * 2 ^ e :=
      mul_le_mul_of_nonneg_right h1 hu.le
    rw [h2]
    have h5 : ((⌊q⌋ : ℤ) : ℚ) + 1 = (K : ℚ) := by rw [hK]; push_cast; rfl
    rw [h5]
    linarith
  by_cases hfl2 : ⌊q * P⌋ ≤ K * P - 2
  · have := roundHalfEven_le (q * P)
    omega
  · have hfl3 : ⌊q * P⌋ = K * P - 1 := by omega
    suffices hfrac : q * P - ⌊q * P⌋ < 1 / 2 by
      rw [roundHalfEven_of_lt_half hfrac, hfl3]
    by_contra hcon
    push_neg at hcon
    rw [hfl3] at hcon
    push_cast at hcon
    -- the value is within half a unit below `K`
    have hnear : (K : ℚ) - q ≤ 2 ^ e / 2 := by
      have h1 : ((K : ℚ) - q) * P ≤ 1 / 2 := by linarith
      have h2 : ((K : ℚ) - q) * P * 2 ^ e ≤ 1 / 2 * 2 ^ e :=
        mul_le_mul_of_nonneg_right h1 hu.le
      rw [mul_assoc, hPu] at h2
      linarith
    have hule1 : (2 : ℚ) ^ e ≤ 1 := by
      have : (2 : ℚ) ^ e ≤ 2 ^ (0 : ℤ) := zpow_le_zpow_right₀ (by norm_num) (by omega)
      simpa using this
    by_cases hK0 : K = 0
    · -- underflow case, excluded by the bound on negative values
      rw [hK0] at hnear hqK
      simp only [Int.cast_zero, zero_sub] at hnear
      simp only [Int.cast_zero] at hqK
      have hxneg : x < 0 := by rw [hxq]; linarith
      have hx1 := hneg hxneg
      have hqabs : |q| = -q := abs_of_neg hqK
      have hq0 : q ≠ 0 := hqK.ne
      have hLle := zpow_log_le_abs hq0
      rcases ulpExp_cases q with h1 | h1
      · have h2 : (2 : ℚ) ^ Int.log 2 |q| = 2 ^ 52 * 2 ^ e := by
          rw [hedef, h1, ← zpow_natCast, ← zpow_add₀ (by norm_num : (2 : ℚ) ≠ 0)]
          congr 1
          push_cast
          ring
        have h3 : (2 : ℚ) ^ e ≤ 2 ^ 52 * 2 ^ e := by
          have : (1 : ℚ) ≤ 2 ^ 52 := by norm_num
          nlinarith
        linarith
      · have h2 : (2 : ℚ) ^ e = 2 ^ (-1074 : ℤ) := by rw [hedef, h1]
        have hsplit : (2 : ℚ) ^ (-1000 : ℤ) = 2 ^ (-1074 : ℤ) * 2 ^ (74 : ℤ) := by
          rw [← zpow_add₀ (by norm_num : (2 : ℚ) ≠ 0)]
          norm_num
        have hp : (0 : ℚ) < 2 ^ (-1074 : ℤ) := two_zpow_pos _
        have h74 : (100 : ℚ) < 2 ^ (74 : ℤ) := by norm_num
        rw [h2] at hnear
        rw [hxq, hsplit] at hx1
        generalize (2 : ℚ) ^ (-1074 : ℤ) = a at hnear hx1 hp
        generalize (2 : ℚ) ^ (74 : ℤ) = b at hx1 h74
        nlinarith
    · -- the value is at least a half in magnitude, so the format is normal there
      have hqhalf : (2 : ℚ) ^ (-1 : ℤ) ≤ |q| := by
        have h12 : (2 : ℚ) ^ (-1 : ℤ) = 1 / 2 := by norm_num
        rw [h12]
        rcases lt_or_gt_of_ne hK0 with hKneg | hKpos
        · have hK1 : (K : ℚ) ≤ -1 := by exact_mod_cast (by omega : K ≤ -1)
          rw [abs_of_neg (by linarith)]
          linarith
        · have hK1 : (1 : ℚ) ≤ K := by exact_mod_cast (by omega : 1 ≤ K)
          have : (1 : ℚ) / 2 ≤ q := by linarith
          rw [abs_of_nonneg (by linarith)]
          exact this
      have hLge := le_log_of_le_abs hqhalf
      have heq : e = Int.log 2 |q| - 52 := by
        rcases ulpExp_cases q with h1 | h1
        · rw [hedef, h1]
        · rw [hedef] at he ⊢
          have := ulpExp_ge_log q
          omega
      have hq0 : q ≠ 0 := by
        intro h0
        rw [h0] at hqhalf
        norm_num at hqhalf
      have hLle := zpow_log_le_abs hq0
      -- `x` is a multiple of `2 ^ (e + 6)`
      have hxabs : (2 : ℚ) ^ (e + 6 + 52) ≤ |x| := by
        have h1 : |x| = 100 * |q| := by rw [hxq, abs_mul]; norm_num
        have h2 : (2 : ℚ) ^ (e + 6 + 52) = 2 ^ 6 * 2 ^ Int.log 2 |q| := by
          rw [heq, ← zpow_natCast, ← zpow_add₀ (by norm_num : (2 : ℚ) ≠ 0)]
          congr 1
          push_cast
          ring
        rw [h1, h2]
        have : (2 : ℚ) ^ 6 ≤ 100 := by norm_num
        have hpos : (0 : ℚ) < 2 ^ Int.log 2 |q| := two_zpow_pos _
        nlinarith
      obtain ⟨z, hz⟩ := isDouble_multiple hx (Or.inl hxabs)
      -- so is `100 * K`
      set P6 : ℤ := 2 ^ (-(e + 6)).toNat with hP6
      have hP6u : (P6 : ℚ) * 2 ^ (e + 6) = 1 := by
        rw [hP6]
        push_cast
        rw [← zpow_natCast, Int.toNat_of_nonneg (by omega),
          ← zpow_add₀ (by norm_num : (2 : ℚ) ≠ 0),
          show -(e + 6) + (e + 6) = 0 by ring, zpow_zero]
      have hdiff : (100 : ℚ) * K - x = ((100 * K * P6 - z : ℤ) : ℚ) * 2 ^ (e + 6) := by
        push_cast
        rw [sub_mul, mul_assoc, hP6u, ← hz]
        ring
      have hpos : (0 : ℚ) < 100 * K - x := by rw [hxq]; linarith
      have hu6 : (0 : ℚ) < 2 ^ (e + 6) := two_zpow_pos _
      have hint : (1 : ℤ) ≤ 100 * K * P6 - z := by
        by_contra hlt
        push_neg at hlt
        have h1 : ((100 * K * P6 - z : ℤ) : ℚ) ≤ 0 := by exact_mod_cast (by omega : 100 * K * P6 - z ≤ 0)
        have h2 : ((100 * K * P6 - z : ℤ) : ℚ) * 2 ^ (e + 6) ≤ 0 :=
          mul_nonpos_of_nonpos_of_nonneg h1 hu6.le
        linarith
      have hge : (2 : ℚ) ^ (e + 6) ≤ 100 * K - x := by
        rw [hdiff]
        have h1 : ((1 : ℤ) : ℚ) ≤ ((100 * K * P6 - z : ℤ) : ℚ) := Int.cast_le.mpr hint
        have h2 := mul_le_mul_of_nonneg_right h1 hu6.le
        simpa using h2
      have h64 : (2 : ℚ) ^ (e + 6) = 64 * 2 ^ e := by
        rw [zpow_add₀ (by norm_num : (2 : ℚ) ≠ 0)]
        norm_num [mul_comm]
      have hle : (100 : ℚ) * K - x ≤ 50 * 2 ^ e := by rw [hxq]; linarith
      linarith

theorem div100_fin (q : ℚ) : (JsNum.fin q).div100 = roundDouble (q / 100) := rfl

theorem floor_fin (q : ℚ) : Math.floor (JsNum.fin q) = JsNum.fin ⌊q⌋ := rfl

theorem inc_fin_fin (a b : ℚ) :
    (JsNumber.of (JsNum.fin a)).inc (JsNum.fin b) = JsNumber.of (roundDouble (a + b)) := rfl

theorem roundDouble_of_abs_lt {q : ℚ} (h : |roundToPrecision q| < 2 ^ 1024) :
    roundDouble q = JsNum.fin (roundToPrecision q) := by
  rw [abs_lt] at h
  unfold roundDouble
  rw [if_neg (by linarith [h.2]), if_neg (by linarith [h.1])]

theorem roundDouble_of_isDouble {d : ℚ} (hd : isDouble d) : roundDouble d = JsNum.fin d := by
  have habs : |roundToPrecision d| < 2 ^ 1024 := by
    rw [roundToPrecision_of_isDouble hd]
    exact isDouble_abs_lt hd
  rw [roundDouble_of_abs_lt habs, roundToPrecision_of_isDouble hd]

/-- Within `10 ^ 15` in magnitude, and outside the underflow of small negative
values, `Math.floor(x / 100)` on doubles is the exact floor of the exact quotient. -/
theorem floor_div100_exact {x : ℚ} (hx : isDouble x)
    (hlo : -10 ^ 15 ≤ x) (hhi : x ≤ 10 ^ 15)
    (hneg : x < 0 → x ≤ -(2 : ℚ) ^ (-1000 : ℤ)) :
    Math.floor (JsNum.fin x).div100 = JsNum.fin ⌊x / 100⌋ := by
  have hup := roundToPrecision_div100_lt hx hlo hhi hneg
  have hq1 : (-10 ^ 15 : ℚ) / 100 ≤ x / 100 := by gcongr
  have hq2 : x / 100 ≤ (10 ^ 15 : ℚ) / 100 := by gcongr
  have hk1 : (-10 ^ 13 : ℤ) ≤ ⌊x / 100⌋ := by
    rw [Int.le_floor]
    push_cast
    linarith [show (-10 ^ 15 : ℚ) / 100 = -10 ^ 13 by norm_num]
  have hk2 : ⌊x / 100⌋ ≤ (10 ^ 13 : ℤ) := by
    have h1 : ((⌊x / 100⌋ : ℤ) : ℚ) ≤ x / 100 := Int.floor_le _
    have h2 : ((⌊x / 100⌋ : ℤ) : ℚ) ≤ ((10 ^ 13 : ℤ) : ℚ) := by
      push_cast
      linarith [show (10 ^ 15 : ℚ) / 100 = 10 ^ 13 by norm_num]
    exact_mod_cast h2
  have hkd : isDouble ((⌊x / 100⌋ : ℤ) : ℚ) := by
    apply isDouble_intCast
    rw [abs_le]
    constructor <;> [skip; skip] <;> omega
  have hlow := le_roundToPrecision hkd (Int.floor_le (x / 100))
  have habs : |roundToPrecision (x / 100)| < 2 ^ 1024 := by
    rw [abs_lt]
    have h1 : ((⌊x / 100⌋ : ℤ) : ℚ) ≤ 10 ^ 13 := by exact_mod_cast hk2
    have h2 : (-10 ^ 13 : ℚ) ≤ ((⌊x / 100⌋ : ℤ) : ℚ) := by exact_mod_cast hk1
    constructor
    · have : (-(2 : ℚ) ^ 1024) < -10 ^ 13 := by norm_num
      linarith
    · have : (10 : ℚ) ^ 13 + 1 < 2 ^ 1024 := by norm_num
      linarith
  rw [div100_fin, roundDouble_of_abs_lt habs, floor_fin]
  congr 2
  rw [Int.floor_eq_iff]
  exact ⟨hlow, hup⟩

/-- The sum of two integers is exact as long as it stays within `2 ^ 53`. -/
theorem inc_exact (n c : ℤ) (h : |n + c| ≤ 2 ^ 53) :
    (JsNumber.of (JsNum.fin n)).inc (JsNum.fin c) = JsNumber.of (JsNum.fin ((n + c : ℤ) : ℚ)) := by
  have hd := isDouble_intCast h
  have hsum : ((n : ℚ) + (c : ℚ)) = ((n + c : ℤ) : ℚ) := by push_cast; ring
  rw [inc_fin_fin, hsum, roundDouble_of_isDouble hd]

theorem JsNum.le_posInf (a : JsNum) : a.le JsNum.posInf := by
  cases a <;> exact True.intro

theorem JsNum.fin_le_fin (a b : ℚ) : (JsNum.fin a).le (JsNum.fin b) ↔ a ≤ b := Iff.rfl

theorem JsNum.not_fin_le_negInf (a : ℚ) : ¬ (JsNum.fin a).le JsNum.negInf := fun h => h

theorem roundDouble_cases (q : ℚ) :
    ((2 : ℚ) ^ 1024 ≤ roundToPrecision q ∧ roundDouble q = JsNum.posInf) ∨
    (roundToPrecision q ≤ -(2 : ℚ) ^ 1024 ∧ roundDouble q = JsNum.negInf) ∨
    roundDouble q = JsNum.fin (roundToPrecision q) := by
  by_cases h1 : (2 : ℚ) ^ 1024 ≤ roundToPrecision q
  · exact Or.inl ⟨h1, if_pos h1⟩
  · by_cases h2 : roundToPrecision q ≤ -(2 : ℚ) ^ 1024
    · exact Or.inr (Or.inl ⟨h2, (if_neg h1).trans (if_pos h2)⟩)
    · exact Or.inr (Or.inr ((if_neg h1).trans (if_neg h2)))

theorem roundToPrecision_nonneg {q : ℚ} (h : 0 ≤ q) : 0 ≤ roundToPrecision q :=
  le_roundToPrecision isDouble_zero h

/-- A power of two up to `2 ^ 1023` is a double. -/
theorem isDouble_two_pow {k : ℕ} (hk : k ≤ 1023) : isDouble ((2 : ℚ) ^ k) := by
  rcases le_or_lt k 971 with h | h
  · refine ⟨1, k, by norm_num, by omega, by omega, ?_⟩
    rw [zpow_natCast]
    simp
  · refine ⟨2 ^ (k - 971), 971, ?_, by norm_num, by norm_num, ?_⟩
    · rw [abs_of_pos (by positivity)]
      exact pow_lt_pow_right₀ (by norm_num) (by omega)
    · push_cast
      rw [show (971 : ℤ) = ((971 : ℕ) : ℤ) by norm_num, zpow_natCast, ← pow_add]
      congr 1
      omega

/-- Rounding a value of magnitude at most `2 ^ k`, `k ≤ 1023`, gives a finite double of
magnitude at most `2 ^ k`. -/
theorem roundDouble_of_abs_le {q : ℚ} {k : ℕ} (hk : k ≤ 1023) (h : |q| ≤ 2 ^ k) :
    roundDouble q = JsNum.fin (roundToPrecision q) ∧ |roundToPrecision q| ≤ 2 ^ k := by
  rw [abs_le] at h
  have hd := isDouble_two_pow hk
  have h1 := roundToPrecision_le hd h.2
  have h2 := le_roundToPrecision (isDouble_neg hd) h.1
  have h3 : |roundToPrecision q| ≤ 2 ^ k := abs_le.mpr ⟨h2, h1⟩
  have h4 : (2 : ℚ) ^ k < 2 ^ 1024 := pow_lt_pow_right₀ (by norm_num) (by omega)
  exact ⟨roundDouble_of_abs_lt (lt_of_le_of_lt h3 h4), h3⟩

/-- The coins earned are an integer or an infinity. -/
theorem floor_div100_integer (t : JsNum) :
    (∃ z : ℤ, Math.floor t.div100 = JsNum.fin z) ∨ Math.floor t.div100 = JsNum.posInf ∨
      Math.floor t.div100 = JsNum.negInf := by
  cases t with
  | posInf => right; left; rfl
  | negInf => right; right; rfl
  | fin q =>
    rw [div100_fin]
    rcases roundDouble_cases (q / 100) with ⟨_, h⟩ | ⟨_, h⟩ | h
    · right; left; rw [h]; rfl
    · right; right; rw [h]; rfl
    · left; rw [h]; exact ⟨_, rfl⟩

/-- The coins earned for a total that is not negative are not negative. -/
theorem floor_div100_nonneg {t : JsNum} (h : (JsNum.fin 0).le t) :
    (JsNum.fin 0).le (Math.floor t.div100) := by
  cases t with
  | posInf => exact JsNum.le_posInf _
  | negInf => exact absurd h (JsNum.not_fin_le_negInf 0)
  | fin q =>
    have hq : (0 : ℚ) ≤ q := (JsNum.fin_le_fin 0 q).mp h
    have hr := roundToPrecision_nonneg (div_nonneg hq (by norm_num : (0 : ℚ) ≤ 100))
    rw [div100_fin]
    rcases roundDouble_cases (q / 100) with ⟨_, h⟩ | ⟨h2, _⟩ | h
    · rw [h]
      exact JsNum.le_posInf _
    · exfalso
      have hpos : (0 : ℚ) < 2 ^ 1024 := by positivity
      linarith
    · have hfl : (0 : ℤ) ≤ ⌊roundToPrecision (q / 100)⌋ := Int.floor_nonneg.mpr hr
      rw [h, floor_fin, JsNum.fin_le_fin]
      exact_mod_cast hfl

/-- Adding coins that are not negative to a finite balance does not lower it. -/
theorem le_inc {n : ℚ} (hn : isDouble n) {c : JsNum} (hc : (JsNum.fin 0).le c) :
    JsNumber.le (JsNumber.of (JsNum.fin n)) ((JsNumber.of (JsNum.fin n)).inc c) := by
  cases c with
  | posInf => exact True.intro
  | negInf => exact absurd hc (JsNum.not_fin_le_negInf 0)
  | fin z =>
    have hz : (0 : ℚ) ≤ z := (JsNum.fin_le_fin 0 z).mp hc
    have hr := le_roundToPrecision hn (show n ≤ n + z by linarith)
    rw [inc_fin_fin]
    rcases roundDouble_cases (n + z) with ⟨_, h⟩ | ⟨h2, _⟩ | h
    · rw [h]
      exact True.intro
    · exfalso
      have h3 := isDouble_abs_lt hn
      rw [abs_lt] at h3
      linarith [h3.1]
    · rw [h]
      exact hr

/-- Adding an integer or an infinity to an integer balance gives an integer or an
infinity. -/
theorem inc_integer (n : ℤ) {c : JsNum}
    (hc : (∃ z : ℤ, c = JsNum.fin z) ∨ c = JsNum.posInf ∨ c = JsNum.negInf) :
    (∃ z : ℤ, (JsNumber.of (JsNum.fin n)).inc c = JsNumber.of (JsNum.fin z)) ∨
      (JsNumber.of (JsNum.fin n)).inc c = JsNumber.of JsNum.posInf ∨
      (JsNumber.of (JsNum.fin n)).inc c = JsNumber.of JsNum.negInf := by
  rcases hc with ⟨z, rfl⟩ | rfl | rfl
  · rw [inc_fin_fin]
    have hsum : ((n : ℚ) + (z : ℚ)) = ((n + z : ℤ) : ℚ) := by push_cast; ring
    obtain ⟨m, hm⟩ := roundToPrecision_intCast (n + z)
    rw [hsum]
    rcases roundDouble_cases ((n + z : ℤ) : ℚ) with ⟨_, h⟩ | ⟨_, h⟩ | h
    · right; left; rw [h]
    · right; right; rw [h]
    · left; exact ⟨m, by rw [h, hm]⟩
  · right; left; rfl
  · right; right; rfl

/-- For a finite total and a balance of at most `10 ^ 300`, the balance after the credit
is a finite integer. -/
theorem inc_floor_div100_finite {t : ℚ} (ht : isDouble t) {n : ℕ} (hn : (n : ℚ) ≤ 10 ^ 300) :
    ∃ z : ℤ, (JsNumber.of (JsNum.fin n)).inc (Math.floor (JsNum.fin t).div100)
      = JsNumber.of (JsNum.fin z) := by
  have htabs := isDouble_abs_lt ht
  have hq : |t / 100| ≤ 2 ^ 1018 := by
    rw [abs_div]
    have h100 : |(100 : ℚ)| = 100 := by norm_num
    rw [h100, div_le_iff₀ (by norm_num)]
    have : (2 : ℚ) ^ 1024 ≤ 2 ^ 1018 * 100 := by norm_num
    linarith
  obtain ⟨h1, h2⟩ := roundDouble_of_abs_le (by norm_num : 1018 ≤ 1023) hq
  rw [div100_fin, h1, floor_fin, inc_fin_fin]
  rw [abs_le] at h2
  set v := roundToPrecision (t / 100) with hv
  have hfl1 : ((⌊v⌋ : ℤ) : ℚ) ≤ 2 ^ 1018 := le_trans (Int.floor_le v) h2.2
  have hfl2 : (-(2 : ℚ) ^ 1018) - 1 ≤ ((⌊v⌋ : ℤ) : ℚ) := by
    have h3 : v < ((⌊v⌋ : ℤ) : ℚ) + 1 := Int.lt_floor_add_one v
    linarith [h2.1]
  have hn0 : (0 : ℚ) ≤ (n : ℚ) := Nat.cast_nonneg n
  have hsum : |(n : ℚ) + ((⌊v⌋ : ℤ) : ℚ)| ≤ 2 ^ 1019 := by
    rw [abs_le]
    have h300 : (10 : ℚ) ^ 300 ≤ 2 ^ 1018 := by norm_num
    have h1019 : (2 : ℚ) ^ 1019 = 2 * 2 ^ 1018 := by norm_num
    have hone : (1 : ℚ) ≤ 2 ^ 1018 := one_le_pow₀ (by norm_num)
    constructor <;> linarith
  obtain ⟨h3, _⟩ := roundDouble_of_abs_le (by norm_num : 1019 ≤ 1023) hsum
  have hcast : (n : ℚ) + ((⌊v⌋ : ℤ) : ℚ) = (((n : ℤ) + ⌊v⌋ : ℤ) : ℚ) := by push_cast; ring
  obtain ⟨m, hm⟩ := roundToPrecision_intCast ((n : ℤ) + ⌊v⌋)
  refine ⟨m, ?_⟩
  rw [h3, hcast, hm]

/-- The rounding of a positive value whose binade is known. -/
theorem roundToPrecision_eq {q : ℚ} {e : ℤ} (he : -1074 ≤ e) (hq : 0 < q)
    (h1 : (2 : ℚ) ^ (e + 52) ≤ q) (h2 : q < (2 : ℚ) ^ (e + 53)) :
    roundToPrecision q = roundHalfEven (q / 2 ^ e) * 2 ^ e := by
  have habs : |q| = q := abs_of_pos hq
  have hL1 : e + 52 ≤ Int.log 2 |q| := le_log_of_le_abs (by rw [habs]; exact h1)
  have hL2 : Int.log 2 |q| < e + 53 := by
    have h3 : |q| < ((2 : ℕ) : ℚ) ^ (e + 53) := by
      rw [habs]
      simpa using h2
    exact (Int.lt_zpow_iff_log_lt (by norm_num) (abs_pos.mpr hq.ne')).mp h3
  have hu : ulpExp q = e := by
    have hL : Int.log 2 |q| = e + 52 := by omega
    unfold ulpExp
    rw [hL, show e + 52 - 52 = e by ring]
    exact max_eq_left he
  unfold roundToPrecision
  rw [hu]

/-! ## Lemmas on the store operations -/

theorem find?_updateFirst {α : Type} (p : α → Bool) (f : α → α) (hf : ∀ x, p (f x) = p x) :
    ∀ l : List α, (updateFirst p f l).find? p = (l.find? p).map f
  | [] => rfl
  | x :: xs => by
    by_cases hx : p x = true
    · simp [updateFirst, hx, List.find?, hf]
    · have hx' : p x = false := by simpa using hx
      simp [updateFirst, hx', List.find?, hf, find?_updateFirst p f hf xs]

theorem updateFirst_of_find?_none {α : Type} (p : α → Bool) (f : α → α) :
    ∀ l : List α, l.find? p = none → updateFirst p f l = l
  | [], _ => rfl
  | x :: xs, h => by
    by_cases hx : p x = true
    · simp [List.find?, hx] at h
    · have hx' : p x = false := by simpa using hx
      have h' : xs.find? p = none := by simpa [List.find?, hx'] using h
      simp [updateFirst, hx', updateFirst_of_find?_none p f xs h']

/-! ## Lemmas on order creation -/

theorem createOrder_of_passes {env : Env} {userId : Option String} {body : OrderBody}
    {w : World} (h : passesValidation body = true) :
    createOrder env userId body w = placeOrder env userId body w := by
  simp only [passesValidation, Bool.and_eq_true, Bool.not_eq_true'] at h
  obtain ⟨⟨⟨⟨⟨h1, h2⟩, h3⟩, h4⟩, h5⟩, h6⟩ := h
  simp only [createOrder, h1, h2, h3, h4, h5, h6, Bool.false_eq_true, if_false]

theorem createOrder_of_not_passes (env : Env) (userId : Option String) {body : OrderBody}
    (w : World) (h : passesValidation body = false) :
    ∃ error, createOrder env userId body w = reject 400 error w := by
  unfold createOrder
  split_ifs with h1 h2 h3 h4 h5 h6
  · exact ⟨_, rfl⟩
  · exact ⟨_, rfl⟩
  · exact ⟨_, rfl⟩
  · exact ⟨_, rfl⟩
  · exact ⟨_, rfl⟩
  · exact ⟨_, rfl⟩
  · exfalso
    simp only [Bool.not_eq_true] at h1 h2 h3 h4 h5 h6
    simp [passesValidation, h1, h2, h3, h4, h5, h6] at h

theorem placeOrder_of_account {env : Env} {userId : Option String} {body : OrderBody}
    {w : World} {user : User} (hu : accountOf w userId = some user)
    (h0 : env.storeFault 0 = none) (h1 : env.storeFault 1 = none)
    (h2 : env.storeFault 2 = none) :
    placeOrder env userId body w = orderPlaced env userId user body w := by
  unfold accountOf at hu
  simp [placeOrder, User.findOne, Order.save, User.findOneAndUpdate, h0, h1, h2, hu,
    orderPlaced]

theorem placeOrder_created {env : Env} {userId : Option String} {body : OrderBody}
    {w : World} (h : (placeOrder env userId body w).res.status = 201) :
    ∃ user, accountOf w userId = some user ∧ env.storeFault 0 = none ∧
      env.storeFault 1 = none ∧ env.storeFault 2 = none := by
  unfold placeOrder User.findOne Order.save User.findOneAndUpdate at h
  unfold accountOf
  cases h0 : env.storeFault 0 with
  | some e => simp [h0, createOrderFailed] at h
  | none =>
    cases hu : w.users.find? (fun u => some u.clerkId == userId) with
    | none => simp [h0, hu, reject] at h
    | some user =>
      cases h1 : env.storeFault 1 with
      | some e => simp [h0, hu, h1, createOrderFailed] at h
      | none =>
        cases h2 : env.storeFault 2 with
        | some e => simp [h0, hu, h1, h2, createOrderFailed] at h
        | none => exact ⟨user, rfl, rfl, rfl, rfl⟩

theorem createOrder_created {env : Env} {userId : Option String} {body : OrderBody}
    {w : World} (h : (createOrder env userId body w).res.status = 201) :
    ∃ user, passesValidation body = true ∧ accountOf w userId = some user ∧
      createOrder env userId body w = orderPlaced env userId user body w := by
  cases hv : passesValidation body with
  | false =>
    obtain ⟨error, he⟩ := createOrder_of_not_passes env userId w hv
    rw [he] at h
    simp [reject] at h
  | true =>
    rw [createOrder_of_passes hv] at h ⊢
    obtain ⟨user, hu, h0, h1, h2⟩ := placeOrder_created h
    exact ⟨user, rfl, hu, placeOrder_of_account hu h0 h1 h2⟩

theorem clerkId_clearCartAndCredit (userId : Option String) (c : JsNum) (u : User) :
    (some (clearCartAndCredit c u).clerkId == userId) = (some u.clerkId == userId) := rfl

theorem accountOf_orderPlaced {env : Env} {userId : Option String} {body : OrderBody}
    {w : World} {user : User} (hu : accountOf w userId = some user) :
    accountOf (orderPlaced env userId user body w).world userId =
      some (clearCartAndCredit (Math.floor body.total.asNum.div100) user) := by
  unfold accountOf at hu ⊢
  simp only [orderPlaced]
  rw [find?_updateFirst _ _ (clerkId_clearCartAndCredit userId _), hu]
  rfl

theorem placeOrder_users_of_not_created {env : Env} {userId : Option String}
    {body : OrderBody} {w : World} (h : (placeOrder env userId body w).res.status ≠ 201) :
    (placeOrder env userId body w).world.users = w.users := by
  unfold placeOrder User.findOne Order.save User.findOneAndUpdate at h ⊢
  cases h0 : env.storeFault 0 with
  | some e => simp [createOrderFailed]
  | none =>
    cases hu : w.users.find? (fun u => some u.clerkId == userId) with
    | none => simp [reject]
    | some user =>
      cases h1 : env.storeFault 1 with
      | some e => simp [createOrderFailed]
      | none =>
        cases h2 : env.storeFault 2 with
        | some e => simp [createOrderFailed]
        | none => simp [h0, hu, h1, h2] at h

theorem createOrder_users_of_not_created {env : Env} {userId : Option String}
    {body : OrderBody} {w : World} (h : (createOrder env userId body w).res.status ≠ 201) :
    (createOrder env userId body w).world.users = w.users := by
  cases hv : passesValidation body with
  | false =>
    obtain ⟨error, he⟩ := createOrder_of_not_passes env userId w hv
    rw [he]; rfl
  | true =>
    rw [createOrder_of_passes hv] at h ⊢
    exact placeOrder_users_of_not_created h

theorem jsTrim_of_all_whiteSpace (s : String)
    (h : s.toList.all isJsWhiteSpace = true) : jsTrim s = "" := by
  have h1 : s.toList.dropWhile isJsWhiteSpace = [] := by
    rw [List.dropWhile_eq_nil_iff]
    simpa using h
  unfold jsTrim
  rw [h1]
  rfl

/-! ## Order creation: the cart is cleared together with the credit -/

/-- C2: for an existing account, whatever its cart holds, a `createOrder` that answers
201 leaves the account with an empty cart; and after any call, successful or not, the
account store is either untouched or is the old store with the one combined update
applied to the account, which both empties the cart and adds `Math.floor(total / 100)`
to the coins, so the clear and the credit never occur apart. -/
theorem createOrder_clears_cart_with_credit (env : Env) (userId : Option String)
    (body : OrderBody) (w : World) (before : User)
    (hb : accountOf w userId = some before) :
    ((createOrder env userId body w).res.status = 201 →
      ∃ after, accountOf (createOrder env userId body w).world userId = some after ∧
        after.cartItem = []) ∧
    (((createOrder env userId body w).world.users = w.users ∧
        accountOf (createOrder env userId body w).world userId = some before) ∨
      ((createOrder env userId body w).world.users =
          updateFirst (fun u => some u.clerkId == userId)
            (clearCartAndCredit (Math.floor body.total.asNum.div100)) w.users ∧
        accountOf (createOrder env userId body w).world userId =
          some { before with
                 cartItem := []
                 coins := before.coins.inc (Math.floor body.total.asNum.div100) })) := by
  by_cases h : (createOrder env userId body w).res.status = 201
  · obtain ⟨user, _, hu, hc⟩ := createOrder_created h
    have hub : user = before := Option.some.inj (hu.symm.trans hb)
    subst hub
    have ha := @accountOf_orderPlaced env userId body w user hu
    refine ⟨fun _ => ⟨_, hc ▸ ha, rfl⟩, Or.inr ⟨?_, ?_⟩⟩
    · rw [hc]; rfl
    · rw [hc, ha]; rfl
  · refine ⟨fun h201 => absurd h201 h, Or.inl ⟨createOrder_users_of_not_created h, ?_⟩⟩
    unfold accountOf at hb ⊢
    rw [createOrder_users_of_not_created h, hb]

/-- Witness for C2: the sample account, whose cart holds two lines, places the sample
order; the request is answered 201 and the account is left with an empty cart. -/
theorem createOrder_clears_cart_with_credit_witness :
    accountOf sampleWorld (some "user_1") = some sampleUser ∧
    sampleUser.cartItem ≠ [] ∧
    (createOrder sampleEnv (some "user_1") sampleBody sampleWorld).res.status = 201 ∧
    ∃ after,
      accountOf (createOrder sampleEnv (some "user_1") sampleBody sampleWorld).world
        (some "user_1") = some after ∧
      after.cartItem = [] :=
  ⟨by decide, by decide, by decide,
    (createOrder_clears_cart_with_credit sampleEnv (some "user_1") sampleBody sampleWorld
      sampleUser (by decide)).1 (by decide)⟩

/-! ## Order creation: a delivery order needs an address -/

/-- C3: when `deliveryOption` is `'delivery'` and the address is absent, not a string,
empty or made only of white space (every string the address could be consists of
white space), `createOrder` answers 400 whatever the other fields, the environment and
the caller are, and leaves both stores as they were, without a notification. -/
theorem createOrder_delivery_blank_address (env : Env) (userId : Option String)
    (body : OrderBody) (w : World)
    (hd : body.deliveryOption = JsVal.str "delivery")
    (ha : ∀ s, body.address = JsVal.str s → s.toList.all isJsWhiteSpace = true) :
    (createOrder env userId body w).res.status = 400 ∧
    (createOrder env userId body w).world = w ∧
    (createOrder env userId body w).sms = none := by
  have hv : passesValidation body = false := by
    cases hp : passesValidation body with
    | false => rfl
    | true =>
      exfalso
      simp only [passesValidation, Bool.and_eq_true] at hp
      have h6 := hp.2
      rw [hd] at h6
      cases hb : body.address with
      | str s =>
        have ht := jsTrim_of_all_whiteSpace s (ha s hb)
        simp [hb, JsVal.isStr, JsVal.asStr, ht] at h6
      | undefined => simp [hb, JsVal.isStr, JsVal.truthy] at h6
      | null => simp [hb, JsVal.isStr, JsVal.truthy] at h6
      | bool b => simp [hb, JsVal.isStr, JsVal.typeofString] at h6
      | num q => simp [hb, JsVal.isStr, JsVal.typeofString] at h6
      | arr xs => simp [hb, JsVal.isStr, JsVal.typeofString] at h6
      | obj fields => simp [hb, JsVal.isStr, JsVal.typeofString] at h6
  obtain ⟨error, he⟩ := createOrder_of_not_passes env userId w hv
  rw [he]
  exact ⟨rfl, rfl, rfl⟩

/-- Witness for C3: the sample request turned into a delivery order whose address is a
space, a tab and a line feed. -/
theorem createOrder_delivery_blank_address_witness :
    sampleBlankDelivery.deliveryOption = JsVal.str "delivery" ∧
    sampleBlankDelivery.address = JsVal.str " \t\n" ∧
    " \t\n".toList.all isJsWhiteSpace = true ∧
    (createOrder sampleEnv (some "user_1") sampleBlankDelivery sampleWorld).res.status = 400 ∧
    (createOrder sampleEnv (some "user_1") sampleBlankDelivery sampleWorld).world
      = sampleWorld ∧
    (createOrder sampleEnv (some "user_1") sampleBlankDelivery sampleWorld).sms = none :=
  ⟨rfl, rfl, by decide,
    createOrder_delivery_blank_address sampleEnv (some "user_1") sampleBlankDelivery
      sampleWorld rfl (by
        intro s hs
        have hs2 : s = " \t\n" := (JsVal.str.inj hs).symm
        subst hs2
        decide)⟩

/-! ## Lemmas on the cart -/

theorem truthy_of_get_num {item : JsVal} {key : String} {q : JsNum}
    (h : item.get key = JsVal.num q) : item.truthy = true := by
  cases item with
  | obj fields => rfl
  | undefined => simp [JsVal.get] at h
  | null => simp [JsVal.get] at h
  | bool b => simp [JsVal.get] at h
  | num n => simp [JsVal.get] at h
  | str t => simp [JsVal.get] at h
  | arr xs => simp [JsVal.get] at h

theorem newLines_cons (cart : List CartItem) (item : JsVal) (rest : List JsVal) :
    newLines cart (item :: rest) =
      if cart.any (fun existingItem => existingItem.barcode == (item.get "barcode").asNum)
      then newLines cart rest
      else { barcode := (item.get "barcode").asNum } :: newLines cart rest := by
  unfold newLines
  rw [List.filterMap_cons]
  split_ifs <;> rfl

theorem collectItemsToAdd_eq (user : User) :
    ∀ (items : List JsVal) (itemsToAdd : List CartItem),
      (∀ item ∈ items, ∃ q, item.get "barcode" = JsVal.num q) →
      collectItemsToAdd user itemsToAdd items
        = some (itemsToAdd ++ newLines user.cartItem items)
  | [], itemsToAdd, _ => by simp [collectItemsToAdd, newLines]
  | item :: rest, itemsToAdd, h => by
    obtain ⟨q, hq⟩ := h item (List.mem_cons_self _ _)
    have hrest : ∀ i ∈ rest, ∃ q, i.get "barcode" = JsVal.num q :=
      fun i hi => h i (List.mem_cons_of_mem _ hi)
    have ht := truthy_of_get_num hq
    have hn : (item.get "barcode").typeofNumber = true := by rw [hq]; rfl
    rw [newLines_cons]
    unfold collectItemsToAdd
    simp only [ht, hn, Bool.and_self, if_true]
    by_cases hex : user.cartItem.any
        (fun existingItem => existingItem.barcode == (item.get "barcode").asNum) = true
    · simp only [hex, Bool.not_true, Bool.false_eq_true, if_false, if_true]
      exact collectItemsToAdd_eq user rest itemsToAdd hrest
    · have hex2 : user.cartItem.any
          (fun existingItem => existingItem.barcode == (item.get "barcode").asNum) = false := by
        simpa using hex
      simp only [hex2, Bool.not_false, if_true, Bool.false_eq_true, if_false]
      rw [collectItemsToAdd_eq user rest _ hrest, List.append_assoc]
      rfl

theorem updateCart_lines {env : Env} {body : CartBody} {w : World} {user : User}
    {items : List JsVal} (hi : body.cartItems = JsVal.arr items) (hne : items ≠ [])
    (hnum : ∀ item ∈ items, ∃ q, item.get "barcode" = JsVal.num q)
    (he : isSet body.email = true) (hu : accountByEmail w body.email = some user)
    (hs : ∀ k, env.storeFault k = none) :
    updateCart env body w =
      if (newLines user.cartItem items).length == 0 then cartUnchanged w
      else cartAppended body.email user (newLines user.cartItem items) w := by
  have hlen : (items.length == 0) = false := by
    cases items with
    | nil => exact absurd rfl hne
    | cons x xs => rfl
  unfold accountByEmail at hu
  unfold updateCart User.findOne User.findOneAndUpdate
  simp only [hi, JsVal.isArray, JsVal.asArr, he, hs, hu, hlen, Bool.not_true,
    Bool.false_eq_true, if_false, collectItemsToAdd_eq user items [] hnum, List.nil_append]
  split_ifs <;> rfl

theorem newLines_append_newLines (cart : List CartItem) (items : List JsVal) :
    newLines (cart ++ newLines cart items) items = [] := by
  unfold newLines
  rw [List.filterMap_eq_nil_iff]
  intro item hitem
  rw [if_pos]
  rw [List.any_append, Bool.or_eq_true]
  by_cases hex : cart.any
      (fun existingItem => existingItem.barcode == (item.get "barcode").asNum) = true
  · exact Or.inl hex
  · right
    rw [List.any_eq_true]
    refine ⟨{ barcode := (item.get "barcode").asNum }, ?_, by simp⟩
    rw [List.mem_filterMap]
    exact ⟨item, hitem, by rw [if_neg hex]⟩

theorem email_pushLines (email : Option String) (lines : List CartItem) (u : User) :
    (some (pushLines lines u).email == email) = (some u.email == email) := rfl

theorem email_clearCart (email : Option String) (u : User) :
    (some (clearCart u).email == email) = (some u.email == email) := rfl

theorem clearCart_clearCart (u : User) : clearCart (clearCart u) = clearCart u := rfl

theorem accountByEmail_cartAppended {email : Option String} {user : User}
    {lines : List CartItem} {w : World} (hu : accountByEmail w email = some user) :
    accountByEmail (cartAppended email user lines w).world email
      = some (pushLines lines user) := by
  unfold accountByEmail at hu ⊢
  simp only [cartAppended]
  rw [find?_updateFirst _ _ (email_pushLines email lines), hu]
  rfl

/-! ## Cart: adding the same lines twice -/

/-- C5: for an existing account, named by a non-empty email, with any cart, and a
non-empty `cartItems` array whose entries all carry a numeric `barcode` (repeats
allowed), with no store call rejecting: the first `updateCart` answers 200, and a
second `updateCart` with the same body on the resulting world answers 200 with the
message "All provided items are already in the cart or no new items to add." and no
user object, and leaves the world, hence the cart, exactly as the first call left
it. -/
theorem updateCart_twice (env env2 : Env) (body : CartBody) (w : World) (user : User)
    (items : List JsVal)
    (hi : body.cartItems = JsVal.arr items) (hne : items ≠ [])
    (hnum : ∀ item ∈ items, ∃ q, item.get "barcode" = JsVal.num q)
    (he : isSet body.email = true) (hu : accountByEmail w body.email = some user)
    (hs : ∀ k, env.storeFault k = none) (hs2 : ∀ k, env2.storeFault k = none) :
    (updateCart env body w).res.status = 200 ∧
    (updateCart env2 body (updateCart env body w).world).res.status = 200 ∧
    (updateCart env2 body (updateCart env body w).world).res.body
      = Body.message "All provided items are already in the cart or no new items to add." ∧
    (updateCart env2 body (updateCart env body w).world).world
      = (updateCart env body w).world := by
  have h1 := @updateCart_lines env body w user items hi hne hnum he hu hs
  by_cases hl : ((newLines user.cartItem items).length == 0) = true
  · rw [if_pos hl] at h1
    have hw : (updateCart env body w).world = w := by rw [h1]; rfl
    have h2 := @updateCart_lines env2 body w user items hi hne hnum he hu hs2
    rw [if_pos hl] at h2
    rw [hw, h2]
    exact ⟨by rw [h1]; rfl, rfl, rfl, rfl⟩
  · rw [if_neg hl] at h1
    have hu2 := @accountByEmail_cartAppended body.email user
      (newLines user.cartItem items) w hu
    have h2 := @updateCart_lines env2 body
      (cartAppended body.email user (newLines user.cartItem items) w).world _ items
      hi hne hnum he hu2 hs2
    simp only [pushLines, newLines_append_newLines, List.length_nil, beq_self_eq_true,
      if_true] at h2
    rw [h1, h2]
    exact ⟨rfl, rfl, rfl, rfl⟩

/-- Witness for C5: the sample account, whose cart holds barcodes 123 and 456, is sent
the lines 123, 789, 789 twice. -/
theorem updateCart_twice_witness :
    sampleCartBody.cartItems = JsVal.arr sampleCartItems ∧
    sampleCartItems ≠ [] ∧
    (∀ item ∈ sampleCartItems, ∃ q, item.get "barcode" = JsVal.num q) ∧
    isSet sampleCartBody.email = true ∧
    accountByEmail sampleWorld sampleCartBody.email = some sampleUser ∧
    (updateCart sampleEnv sampleCartBody sampleWorld).res.status = 200 ∧
    (updateCart sampleEnv sampleCartBody
      (updateCart sampleEnv sampleCartBody sampleWorld).world).res.status = 200 ∧
    (updateCart sampleEnv sampleCartBody
      (updateCart sampleEnv sampleCartBody sampleWorld).world).res.body
      = Body.message "All provided items are already in the cart or no new items to add." ∧
    (updateCart sampleEnv sampleCartBody
      (updateCart sampleEnv sampleCartBody sampleWorld).world).world
      = (updateCart sampleEnv sampleCartBody sampleWorld).world :=
  have hnum : ∀ item ∈ sampleCartItems, ∃ q, item.get "barcode" = JsVal.num q := by
    intro item hm
    simp only [sampleCartItems, List.mem_cons, List.mem_singleton, List.not_mem_nil,
      or_false] at hm
    rcases hm with rfl | rfl | rfl <;> exact ⟨_, rfl⟩
  ⟨rfl, by simp [sampleCartItems], hnum, by decide, by decide,
    updateCart_twice sampleEnv sampleEnv sampleCartBody sampleWorld sampleUser
      sampleCartItems rfl (by simp [sampleCartItems]) hnum (by decide) (by decide)
      (fun _ => rfl) (fun _ => rfl)⟩

/-! ## Cart: clearing -/

theorem updateFirst_idem {α : Type} (p : α → Bool) (f : α → α)
    (hp : ∀ x, p (f x) = p x) (hf : ∀ x, f (f x) = f x) :
    ∀ l : List α, updateFirst p f (updateFirst p f l) = updateFirst p f l
  | [] => rfl
  | x :: xs => by
    by_cases hx : p x = true
    · simp [updateFirst, hx, hp, hf]
    · have hx2 : p x = false := by simpa using hx
      simp [updateFirst, hx2, updateFirst_idem p f hp hf xs]

theorem accountByEmail_cartCleared {email : Option String} {user : User} {w : World}
    (hu : accountByEmail w email = some user) :
    accountByEmail (cartCleared email user w).world email = some (clearCart user) := by
  unfold accountByEmail at hu ⊢
  simp only [cartCleared]
  rw [find?_updateFirst _ _ (email_clearCart email), hu]
  rfl

theorem updateCart_clear {env : Env} {body : CartBody} {w : World} {user : User}
    (hi : body.cartItems = JsVal.arr [])
    (he : isSet body.email = true) (hu : accountByEmail w body.email = some user)
    (hs : ∀ k, env.storeFault k = none) :
    updateCart env body w = cartCleared body.email user w := by
  unfold accountByEmail at hu
  have hu2 : (updateFirst (fun u => some u.email == body.email) clearCart w.users).find?
        (fun u => some u.email == body.email) = some (clearCart user) := by
    rw [find?_updateFirst _ _ (email_clearCart body.email), hu]
    rfl
  unfold updateCart User.findOne User.findOneAndUpdate
  simp only [hi, JsVal.isArray, JsVal.asArr, he, hs, hu, hu2, List.length_nil,
    beq_self_eq_true, Bool.not_true, Bool.false_eq_true, if_false, if_true, cartCleared]
  rw [updateFirst_idem _ _ (email_clearCart body.email) clearCart_clearCart]
  rfl

/-- C6: for an existing account, named by a non-empty email, with any cart (an empty one
included), `updateCart` with an empty `cartItems` array and no store call rejecting
answers 200 and leaves the account with the empty cart and its other fields as they
were; a second such call answers 200 again and leaves the world as the first call left
it. -/
theorem updateCart_empty_clears (env env2 : Env) (body : CartBody) (w : World)
    (user : User)
    (hi : body.cartItems = JsVal.arr [])
    (he : isSet body.email = true) (hu : accountByEmail w body.email = some user)
    (hs : ∀ k, env.storeFault k = none) (hs2 : ∀ k, env2.storeFault k = none) :
    (updateCart env body w).res.status = 200 ∧
    accountByEmail (updateCart env body w).world body.email
      = some { user with cartItem := [] } ∧
    (updateCart env2 body (updateCart env body w).world).res.status = 200 ∧
    (updateCart env2 body (updateCart env body w).world).world
      = (updateCart env body w).world := by
  have h1 := @updateCart_clear env body w user hi he hu hs
  have hu2 := @accountByEmail_cartCleared body.email user w hu
  have h2 := @updateCart_clear env2 body (cartCleared body.email user w).world _ hi he hu2 hs2
  rw [h1, h2]
  refine ⟨rfl, hu2, rfl, ?_⟩
  simp only [cartCleared]
  rw [updateFirst_idem _ _ (email_clearCart body.email) clearCart_clearCart]

/-- Witness for C6: the cart of the sample account is cleared twice. -/
theorem updateCart_empty_clears_witness :
    sampleClearBody.cartItems = JsVal.arr [] ∧
    isSet sampleClearBody.email = true ∧
    accountByEmail sampleWorld sampleClearBody.email = some sampleUser ∧
    (updateCart sampleEnv sampleClearBody sampleWorld).res.status = 200 ∧
    accountByEmail (updateCart sampleEnv sampleClearBody sampleWorld).world
      sampleClearBody.email = some { sampleUser with cartItem := [] } ∧
    (updateCart sampleEnv sampleClearBody
      (updateCart sampleEnv sampleClearBody sampleWorld).world).res.status = 200 ∧
    (updateCart sampleEnv sampleClearBody
      (updateCart sampleEnv sampleClearBody sampleWorld).world).world
      = (updateCart sampleEnv sampleClearBody sampleWorld).world :=
  ⟨rfl, by decide, by decide,
    updateCart_empty_clears sampleEnv sampleEnv sampleClearBody sampleWorld sampleUser rfl
      (by decide) (by decide) (fun _ => rfl) (fun _ => rfl)⟩

/-! ## Status updates: values outside the enumeration -/

theorem includes_eq_true_iff (xs : List String) (v : JsVal) :
    includes xs v = true ↔ ∃ s ∈ xs, v = JsVal.str s := by
  cases v with
  | str t =>
    simp only [includes, List.contains_iff_exists_mem_beq, beq_iff_eq, JsVal.str.injEq]
  | undefined => simp [includes]
  | null => simp [includes]
  | bool b => simp [includes]
  | num q => simp [includes]
  | arr xs => simp [includes]
  | obj fields => simp [includes]

/-- C7: for every order id, every environment and every world, when the status of the
request is none of the six strings of `validStatuses` (an absent status, or a value
that is not a string, included), `updateOrderStatus` answers 400, the stores are left
as they were and no notification call is made. -/
theorem updateOrderStatus_invalid_status (env : Env) (id : String) (status : JsVal)
    (w : World) (h : ∀ s ∈ validStatuses, status ≠ JsVal.str s) :
    (updateOrderStatus env id status w).res.status = 400 ∧
    (updateOrderStatus env id status w).world = w ∧
    (updateOrderStatus env id status w).sms = none := by
  have hinc : includes validStatuses status = false := by
    cases hi : includes validStatuses status with
    | false => rfl
    | true =>
      obtain ⟨s, hs, hv⟩ := (includes_eq_true_iff _ _).mp hi
      exact absurd hv (h s hs)
  unfold updateOrderStatus
  rw [hinc]
  exact ⟨rfl, rfl, rfl⟩

/-- Witness for C7: the status `"shipped"` is not in the enumeration. -/
theorem updateOrderStatus_invalid_status_witness :
    (∀ s ∈ validStatuses, JsVal.str "shipped" ≠ JsVal.str s) ∧
    (updateOrderStatus sampleEnv "66b2f0a1c3d4e5f60718293a" (JsVal.str "shipped")
      sampleOrderWorld).res.status = 400 ∧
    (updateOrderStatus sampleEnv "66b2f0a1c3d4e5f60718293a" (JsVal.str "shipped")
      sampleOrderWorld).world = sampleOrderWorld ∧
    (updateOrderStatus sampleEnv "66b2f0a1c3d4e5f60718293a" (JsVal.str "shipped")
      sampleOrderWorld).sms = none :=
  have hne : ∀ s ∈ validStatuses, JsVal.str "shipped" ≠ JsVal.str s := by
    intro s hs hv
    have hs2 : "shipped" ∈ validStatuses := by rw [JsVal.str.inj hv]; exact hs
    revert hs2
    decide
  ⟨hne, updateOrderStatus_invalid_status sampleEnv "66b2f0a1c3d4e5f60718293a"
    (JsVal.str "shipped") sampleOrderWorld hne⟩

/-! ## Notification wording for `ready` -/

theorem textContains_refl (p : String) : textContains p p :=
  List.infix_refl _

theorem textContains_append_left (t u p : String) (h : textContains u p) :
    textContains (t ++ u) p := by
  unfold textContains at h ⊢
  simp only [String.toList, String.data_append] at h ⊢
  exact List.IsInfix.trans h (List.suffix_append t.data u.data).isInfix

theorem textContains_append_right (t u p : String) (h : textContains t p) :
    textContains (t ++ u) p := by
  unfold textContains at h ⊢
  simp only [String.toList, String.data_append] at h ⊢
  exact List.IsInfix.trans h (List.prefix_append t.data u.data).isInfix

theorem orderReady_ne_empty (orderNumber deliveryType : String) :
    smsTemplates.orderReady orderNumber deliveryType ≠ "" := by
  intro h
  have hl := congrArg String.length h
  unfold smsTemplates.orderReady at hl
  split_ifs at hl <;> simp [String.length_append] at hl <;> exact absurd hl.2 (by decide)

theorem statusMessage_ready (o : Order) :
    statusMessage "ready" o
      = smsTemplates.orderReady (orderNumberOf o._id) o.deliveryOption := by
  unfold statusMessage
  rw [if_neg (by decide), if_neg (by decide), if_pos (by decide)]

/-- C8: for every order reference, the `ready` text for delivery type `'delivery'`
contains "out for delivery" and the reference; for every other delivery type it
contains "ready for pickup" and the reference; and `updateOrderStatus` with status
`'ready'`, when it finds the order and the store call does not reject, hands
`sendSMSNotification` the `orderReady` text built from the reference of that order and
its stored `deliveryOption`, addressed to its stored phone number. -/
theorem orderReady_wording (orderNumber : String) :
    (textContains (smsTemplates.orderReady orderNumber "delivery") "out for delivery" ∧
      textContains (smsTemplates.orderReady orderNumber "delivery") orderNumber) ∧
    (∀ deliveryType : String, deliveryType ≠ "delivery" →
      textContains (smsTemplates.orderReady orderNumber deliveryType) "ready for pickup" ∧
      textContains (smsTemplates.orderReady orderNumber deliveryType) orderNumber) ∧
    (∀ (env : Env) (id : String) (w : World) (o : Order),
      w.orders.find? (fun x => x._id == id) = some o → env.storeFault 0 = none →
      (updateOrderStatus env id (JsVal.str "ready") w).sms =
        some (sendSMSNotification env o.phoneNumber
          (smsTemplates.orderReady (orderNumberOf o._id) o.deliveryOption))) := by
  refine ⟨⟨?_, ?_⟩, ?_, ?_⟩
  · unfold smsTemplates.orderReady
    rw [if_pos (by decide)]
    apply textContains_append_right
    apply textContains_append_right
    apply textContains_append_right
    apply textContains_append_left
    decide
  · unfold smsTemplates.orderReady
    rw [if_pos (by decide)]
    apply textContains_append_right
    apply textContains_append_right
    apply textContains_append_right
    apply textContains_append_right
    apply textContains_append_left
    exact textContains_refl orderNumber
  · intro deliveryType hd
    have hd2 : ¬ (deliveryType == "delivery") = true := by simpa using hd
    unfold smsTemplates.orderReady
    rw [if_neg hd2]
    constructor
    · apply textContains_append_right
      apply textContains_append_right
      apply textContains_append_right
      apply textContains_append_left
      decide
    · apply textContains_append_right
      apply textContains_append_right
      apply textContains_append_right
      apply textContains_append_right
      apply textContains_append_left
      exact textContains_refl orderNumber
  · intro env id w o hfind hs
    have hv : includes validStatuses (JsVal.str "ready") = true := by decide
    unfold updateOrderStatus Order.findByIdAndUpdate
    simp only [hv, hs, hfind, Bool.not_true, Bool.false_eq_true, if_false, JsVal.asStr]
    rw [statusMessage_ready, if_pos]
    simpa using orderReady_ne_empty _ _

/-- Witness for C8: the reference `"18293A"`, the delivery type `'takeaway'`, and the
sample delivery order moved to `'ready'`. -/
theorem orderReady_wording_witness :
    "takeaway" ≠ "delivery" ∧
    sampleOrderWorld.orders.find? (fun x => x._id == "66b2f0a1c3d4e5f60718293a")
      = some sampleOrder ∧
    sampleEnv.storeFault 0 = none ∧
    textContains (smsTemplates.orderReady "18293A" "takeaway") "ready for pickup" ∧
    textContains (smsTemplates.orderReady "18293A" "takeaway") "18293A" ∧
    (updateOrderStatus sampleEnv "66b2f0a1c3d4e5f60718293a" (JsVal.str "ready")
        sampleOrderWorld).sms =
      some (sendSMSNotification sampleEnv "9876543210"
        (smsTemplates.orderReady "18293A" "delivery")) :=
  ⟨by decide, rfl, rfl,
    ((orderReady_wording "18293A").2.1 "takeaway" (by decide)).1,
    ((orderReady_wording "18293A").2.1 "takeaway" (by decide)).2,
    (orderReady_wording "18293A").2.2 sampleEnv "66b2f0a1c3d4e5f60718293a" sampleOrderWorld
      sampleOrder rfl rfl⟩

/-! ## Notifications do not affect the outcome -/

theorem placeOrder_sms_irrelevant (env env2 : Env) (hnow : env.now = env2.now)
    (hid : env.newId = env2.newId) (hf : env.storeFault = env2.storeFault)
    (userId : Option String) (body : OrderBody) (w : World) :
    (placeOrder env userId body w).res = (placeOrder env2 userId body w).res ∧
    (placeOrder env userId body w).world = (placeOrder env2 userId body w).world := by
  unfold placeOrder User.findOne Order.save User.findOneAndUpdate newOrder
  rw [hnow, hid, hf]
  cases env2.storeFault 0 with
  | some e => exact ⟨rfl, rfl⟩
  | none =>
    cases w.users.find? (fun u => some u.clerkId == userId) with
    | none => exact ⟨rfl, rfl⟩
    | some user =>
      cases env2.storeFault 1 with
      | some e => exact ⟨rfl, rfl⟩
      | none =>
        cases env2.storeFault 2 with
        | some e => exact ⟨rfl, rfl⟩
        | none =>
          dsimp only
          cases w.users.find? (fun u => some u.clerkId == userId) with
          | none => exact ⟨rfl, rfl⟩
          | some user2 => exact ⟨rfl, rfl⟩

theorem updateOrderStatus_sms_irrelevant (env env2 : Env) (hnow : env.now = env2.now)
    (hf : env.storeFault = env2.storeFault)
    (id : String) (status : JsVal) (w : World) :
    (updateOrderStatus env id status w).res = (updateOrderStatus env2 id status w).res ∧
    (updateOrderStatus env id status w).world = (updateOrderStatus env2 id status w).world := by
  unfold updateOrderStatus Order.findByIdAndUpdate
  rw [hnow, hf]
  split_ifs
  · exact ⟨rfl, rfl⟩
  · cases env2.storeFault 0 with
    | some e => exact ⟨rfl, rfl⟩
    | none =>
      cases w.orders.find? (fun o => o._id == id) with
      | none => exact ⟨rfl, rfl⟩
      | some o => exact ⟨rfl, rfl⟩

/-- C9: two environments that agree on the clock, on the id given to a new order and
on which store calls reject, and that differ in any way in the notification
configuration and in what the notification provider answers (accepting, rejecting, or
not being called for lack of configuration), give for every `createOrder` request and
every `updateOrderStatus` request the same response, status and body, and the same
stores afterwards. -/
theorem notification_never_affects_outcome (env env2 : Env) (hnow : env.now = env2.now)
    (hid : env.newId = env2.newId) (hf : env.storeFault = env2.storeFault) :
    (∀ (userId : Option String) (body : OrderBody) (w : World),
      (createOrder env userId body w).res = (createOrder env2 userId body w).res ∧
      (createOrder env userId body w).world = (createOrder env2 userId body w).world) ∧
    (∀ (id : String) (status : JsVal) (w : World),
      (updateOrderStatus env id status w).res = (updateOrderStatus env2 id status w).res ∧
      (updateOrderStatus env id status w).world
        = (updateOrderStatus env2 id status w).world) := by
  refine ⟨fun userId body w => ?_, updateOrderStatus_sms_irrelevant env env2 hnow hf⟩
  unfold createOrder
  split_ifs
  · exact ⟨rfl, rfl⟩
  · exact ⟨rfl, rfl⟩
  · exact ⟨rfl, rfl⟩
  · exact ⟨rfl, rfl⟩
  · exact ⟨rfl, rfl⟩
  · exact ⟨rfl, rfl⟩
  · exact placeOrder_sms_irrelevant env env2 hnow hid hf userId body w

/-- Witness for C9: the sample environment, whose provider accepts the message, and
one whose provider rejects it; the notification results differ, responses and stores do
not. -/
theorem notification_never_affects_outcome_witness :
    sampleEnv.now = sampleFailingEnv.now ∧
    sampleEnv.newId = sampleFailingEnv.newId ∧
    sampleEnv.storeFault = sampleFailingEnv.storeFault ∧
    (createOrder sampleEnv (some "user_1") sampleBody sampleWorld).sms
      ≠ (createOrder sampleFailingEnv (some "user_1") sampleBody sampleWorld).sms ∧
    (createOrder sampleEnv (some "user_1") sampleBody sampleWorld).res
      = (createOrder sampleFailingEnv (some "user_1") sampleBody sampleWorld).res ∧
    (createOrder sampleEnv (some "user_1") sampleBody sampleWorld).world
      = (createOrder sampleFailingEnv (some "user_1") sampleBody sampleWorld).world :=
  ⟨rfl, rfl, rfl, by decide,
    (notification_never_affects_outcome sampleEnv sampleFailingEnv rfl rfl rfl).1
      (some "user_1") sampleBody sampleWorld⟩

/-! ## Cart: a barcode repeated inside one request -/

/-- C10, evaluated at a failing input: the cart of the sample account holds the
barcodes 123 and 456, once each; `updateCart` with the lines 123, 789, 789 answers 200
and leaves the cart 123, 456, 789, 789, in which the barcode 789 occurs twice. -/
theorem updateCart_repeated_barcode :
    cartUnique sampleUser.cartItem ∧
    accountByEmail sampleWorld sampleCartBody.email = some sampleUser ∧
    (updateCart sampleEnv sampleCartBody sampleWorld).res.status = 200 ∧
    accountByEmail (updateCart sampleEnv sampleCartBody sampleWorld).world
        sampleCartBody.email
      = some { sampleUser with
               cartItem := [{ barcode := 123 }, { barcode := 456 }, { barcode := 789 },
                 { barcode := 789 }] } ∧
    ¬ cartUnique [{ barcode := 123 }, { barcode := 456 }, { barcode := 789 },
        { barcode := 789 }] := by
  refine ⟨by decide, by decide, by decide, by decide, by decide⟩

/-! ## Lemmas on status updates -/

theorem id_setStatus (id status : String) (now : Nat) (o : Order) :
    ((setStatus status now o)._id == id) = (o._id == id) := rfl

theorem updateOrderStatus_of_found {env : Env} {id s : String} {w : World} {o : Order}
    (hs : s ∈ validStatuses) (hf : env.storeFault 0 = none)
    (ho : orderById w id = some o) :
    (updateOrderStatus env id (JsVal.str s) w).res
        = { status := 200, body := Body.order (setStatus s env.now o) } ∧
    (updateOrderStatus env id (JsVal.str s) w).world
        = { w with
            orders := updateFirst (fun x => x._id == id) (setStatus s env.now) w.orders } := by
  have hv : includes validStatuses (JsVal.str s) = true :=
    (includes_eq_true_iff _ _).mpr ⟨s, hs, rfl⟩
  unfold orderById at ho
  unfold updateOrderStatus Order.findByIdAndUpdate
  simp only [hv, hf, ho, Bool.not_true, Bool.false_eq_true, if_false, JsVal.asStr]
  exact ⟨rfl, rfl⟩

theorem updateOrderStatus_of_missing {env : Env} {id s : String} {w : World}
    (hs : s ∈ validStatuses) (hf : env.storeFault 0 = none)
    (ho : orderById w id = none) :
    updateOrderStatus env id (JsVal.str s) w = reject 404 "Order not found" w := by
  have hv : includes validStatuses (JsVal.str s) = true :=
    (includes_eq_true_iff _ _).mpr ⟨s, hs, rfl⟩
  unfold orderById at ho
  unfold updateOrderStatus Order.findByIdAndUpdate
  simp only [hv, hf, ho, Bool.not_true, Bool.false_eq_true, if_false]

theorem updateOrderStatus_ok {env : Env} {id : String} {status : JsVal} {w : World}
    (h : (updateOrderStatus env id status w).res.status = 200) :
    ∃ s o, status = JsVal.str s ∧ s ∈ validStatuses ∧ env.storeFault 0 = none ∧
      orderById w id = some o := by
  cases hv : includes validStatuses status with
  | false =>
    unfold updateOrderStatus at h
    simp [hv, reject] at h
  | true =>
    obtain ⟨s, hs, rfl⟩ := (includes_eq_true_iff _ _).mp hv
    unfold updateOrderStatus Order.findByIdAndUpdate at h
    unfold orderById
    cases hf : env.storeFault 0 with
    | some e => simp [hv, hf, reject] at h
    | none =>
      cases ho : w.orders.find? (fun o => o._id == id) with
      | none => simp [hv, hf, ho, reject] at h
      | some o => exact ⟨s, o, rfl, hs, rfl, rfl⟩

theorem orderById_after_update {id s : String} {now : Nat} {w : World} {o : Order}
    (ho : orderById w id = some o) :
    orderById
        { w with orders := updateFirst (fun x => x._id == id) (setStatus s now) w.orders } id
      = some (setStatus s now o) := by
  unfold orderById at ho ⊢
  simp only []
  rw [find?_updateFirst _ _ (id_setStatus id s now), ho]
  rfl

/-! ## Status updates: no order among the states is enforced -/

/-- C12, as stated, fails: the sample order is in state `'preparing'`; the request to
set it to `'pending'` is answered 200 and the stored order is then `'pending'`, which
comes before `'preparing'` in the order of the states. -/
theorem updateOrderStatus_moves_backwards :
    (orderById sampleOrderWorld "66b2f0a1c3d4e5f60718293a").map (fun o => o.status)
      = some "preparing" ∧
    (updateOrderStatus sampleEnv "66b2f0a1c3d4e5f60718293a" (JsVal.str "pending")
      sampleOrderWorld).res.status = 200 ∧
    (orderById
        (updateOrderStatus sampleEnv "66b2f0a1c3d4e5f60718293a" (JsVal.str "pending")
          sampleOrderWorld).world
        "66b2f0a1c3d4e5f60718293a").map (fun o => o.status) = some "pending" ∧
    comesBefore "pending" "preparing" = true := by
  refine ⟨by decide, by decide, by decide, by decide⟩

/-- C12, amended: whenever `updateOrderStatus` answers 200, the requested status is one
of the six states, the order with that id existed, and the stored order afterwards is
the former one with its status set to the requested status (and `updatedAt` to the
time of the call), whatever its previous status was. No order among the states is
enforced. -/
theorem updateOrderStatus_sets_requested_status (env : Env) (id : String)
    (status : JsVal) (w : World)
    (h : (updateOrderStatus env id status w).res.status = 200) :
    ∃ (s : String) (o : Order),
      status = JsVal.str s ∧ s ∈ validStatuses ∧
      orderById w id = some o ∧
      orderById (updateOrderStatus env id status w).world id
        = some { o with status := s, updatedAt := env.now } := by
  obtain ⟨s, o, rfl, hs, hf, ho⟩ := updateOrderStatus_ok h
  refine ⟨s, o, rfl, hs, ho, ?_⟩
  rw [(updateOrderStatus_of_found hs hf ho).2]
  exact orderById_after_update ho

/-- Witness for the amended C12: the sample order, in state `'preparing'`, is set to
`'delivered'`. -/
theorem updateOrderStatus_sets_requested_status_witness :
    (updateOrderStatus sampleEnv "66b2f0a1c3d4e5f60718293a" (JsVal.str "delivered")
      sampleOrderWorld).res.status = 200 ∧
    ∃ (s : String) (o : Order),
      JsVal.str "delivered" = JsVal.str s ∧ s ∈ validStatuses ∧
      orderById sampleOrderWorld "66b2f0a1c3d4e5f60718293a" = some o ∧
      orderById
          (updateOrderStatus sampleEnv "66b2f0a1c3d4e5f60718293a" (JsVal.str "delivered")
            sampleOrderWorld).world "66b2f0a1c3d4e5f60718293a"
        = some { o with status := s, updatedAt := sampleEnv.now } :=
  ⟨by decide,
    updateOrderStatus_sets_requested_status sampleEnv "66b2f0a1c3d4e5f60718293a"
      (JsVal.str "delivered") sampleOrderWorld (by decide)⟩

/-! ## Status updates: what changes and what does not -/

/-- C13: for each of the six statuses `s`, with the store call not rejecting:
when an order with the id is stored, whatever its current status, `updateOrderStatus`
answers 200 and returns that order with status `s` and `updatedAt` set to the time of
the call and every other field (`_id`, `userId`, `userEmail`, `items`, `total`,
`deliveryOption`, `paymentOption`, `address`, `phoneNumber`, `createdAt`) as it was;
this is the order then stored under the id, the other orders and the accounts are
untouched. When no order has the id, the answer is 404 and the world is unchanged. -/
theorem updateOrderStatus_frame (env : Env) (id s : String) (w : World)
    (hs : s ∈ validStatuses) (hf : env.storeFault 0 = none) :
    (∀ o, orderById w id = some o →
      (updateOrderStatus env id (JsVal.str s) w).res.status = 200 ∧
      (updateOrderStatus env id (JsVal.str s) w).res.body
        = Body.order { o with status := s, updatedAt := env.now } ∧
      orderById (updateOrderStatus env id (JsVal.str s) w).world id
        = some { o with status := s, updatedAt := env.now } ∧
      (updateOrderStatus env id (JsVal.str s) w).world.orders
        = updateFirst (fun x => x._id == id)
            (fun x => { x with status := s, updatedAt := env.now }) w.orders ∧
      (updateOrderStatus env id (JsVal.str s) w).world.users = w.users) ∧
    (orderById w id = none →
      (updateOrderStatus env id (JsVal.str s) w).res.status = 404 ∧
      (updateOrderStatus env id (JsVal.str s) w).world = w) := by
  constructor
  · intro o ho
    obtain ⟨hres, hworld⟩ := @updateOrderStatus_of_found env id s w o hs hf ho
    rw [hres, hworld]
    exact ⟨rfl, rfl, orderById_after_update ho, rfl, rfl⟩
  · intro ho
    rw [updateOrderStatus_of_missing hs hf ho]
    exact ⟨rfl, rfl⟩

/-- Witness for C13: the sample order is set to `'cancelled'`, and an id that no order
has is answered 404. -/
theorem updateOrderStatus_frame_witness :
    "cancelled" ∈ validStatuses ∧
    sampleEnv.storeFault 0 = none ∧
    orderById sampleOrderWorld "66b2f0a1c3d4e5f60718293a" = some sampleOrder ∧
    orderById sampleOrderWorld "000000000000000000000000" = none ∧
    (updateOrderStatus sampleEnv "66b2f0a1c3d4e5f60718293a" (JsVal.str "cancelled")
      sampleOrderWorld).res.status = 200 ∧
    (updateOrderStatus sampleEnv "66b2f0a1c3d4e5f60718293a" (JsVal.str "cancelled")
      sampleOrderWorld).res.body
        = Body.order { sampleOrder with status := "cancelled", updatedAt := sampleEnv.now } ∧
    (updateOrderStatus sampleEnv "000000000000000000000000" (JsVal.str "cancelled")
      sampleOrderWorld).res.status = 404 ∧
    (updateOrderStatus sampleEnv "000000000000000000000000" (JsVal.str "cancelled")
      sampleOrderWorld).world = sampleOrderWorld :=
  have h1 := (updateOrderStatus_frame sampleEnv "66b2f0a1c3d4e5f60718293a" "cancelled"
    sampleOrderWorld (by decide) rfl).1 sampleOrder rfl
  have h2 := (updateOrderStatus_frame sampleEnv "000000000000000000000000" "cancelled"
    sampleOrderWorld (by decide) rfl).2 rfl
  ⟨by decide, rfl, rfl, rfl, h1.1, h1.2.1, h2.1, h2.2⟩

/-! ## Order creation: which requests are rejected -/

theorem items_guard_iff (v : JsVal) :
    (!(!v.truthy || !v.isArray || v.asArr.length == 0)) = true ↔
      ∃ xs, v = JsVal.arr xs ∧ xs ≠ [] := by
  cases v with
  | arr xs => cases xs <;> simp [JsVal.truthy, JsVal.isArray, JsVal.asArr]
  | undefined => simp [JsVal.truthy]
  | null => simp [JsVal.truthy]
  | bool b => simp [JsVal.isArray]
  | num q => simp [JsVal.isArray]
  | str s => simp [JsVal.isArray]
  | obj fields => simp [JsVal.isArray]

theorem total_guard_iff (v : JsVal) :
    (!(!v.truthy || !v.typeofNumber)) = true ↔ ∃ q, v = JsVal.num q ∧ q ≠ 0 := by
  cases v with
  | num q => simp [JsVal.truthy, JsVal.typeofNumber]
  | undefined => simp [JsVal.truthy]
  | null => simp [JsVal.truthy]
  | bool b => simp [JsVal.typeofNumber]
  | arr xs => simp [JsVal.typeofNumber]
  | str s => simp [JsVal.typeofNumber]
  | obj fields => simp [JsVal.typeofNumber]

theorem phone_guard_iff (v : JsVal) :
    (!(!v.truthy || !v.typeofString)) = true ↔ ∃ p, v = JsVal.str p ∧ p ≠ "" := by
  cases v with
  | str s => simp [JsVal.truthy, JsVal.typeofString]
  | undefined => simp [JsVal.truthy]
  | null => simp [JsVal.truthy]
  | bool b => simp [JsVal.typeofString]
  | arr xs => simp [JsVal.typeofString]
  | num q => simp [JsVal.typeofString]
  | obj fields => simp [JsVal.typeofString]

theorem option_guard_iff (a b : String) (ha : a ≠ "") (hb : b ≠ "") (v : JsVal) :
    (!(!v.truthy || !includes [a, b] v)) = true ↔
      (v = JsVal.str a ∨ v = JsVal.str b) := by
  cases v with
  | str s =>
    simp only [JsVal.truthy, includes, Bool.not_or, Bool.not_not, Bool.and_eq_true,
      bne_iff_ne, ne_eq, List.contains_iff_exists_mem_beq, beq_iff_eq, JsVal.str.injEq,
      List.mem_cons, List.mem_singleton, List.not_mem_nil, or_false]
    constructor
    · rintro ⟨_, x, hx, rfl⟩
      exact hx
    · rintro (rfl | rfl)
      · exact ⟨ha, s, Or.inl rfl, rfl⟩
      · exact ⟨hb, s, Or.inr rfl, rfl⟩
  | undefined => simp [JsVal.truthy]
  | null => simp [JsVal.truthy]
  | bool b => simp [includes]
  | arr xs => simp [includes]
  | num q => simp [includes]
  | obj fields => simp [includes]

theorem address_guard_iff (d a : JsVal) :
    (!(d.isStr "delivery" &&
        (!a.truthy || !a.typeofString || jsTrim a.asStr == ""))) = true ↔
      (d = JsVal.str "delivery" → ∃ s, a = JsVal.str s ∧ jsTrim s ≠ "") := by
  have hd : d.isStr "delivery" = true ↔ d = JsVal.str "delivery" := by
    cases d <;> simp [JsVal.isStr]
  by_cases hdd : d = JsVal.str "delivery"
  · subst hdd
    have h1 : (JsVal.str "delivery").isStr "delivery" = true := by decide
    simp only [h1, Bool.true_and, forall_true_left]
    cases a with
    | str s =>
      have hempty : jsTrim "" = "" := by decide
      by_cases hs : s = ""
      · subst hs
        simp [JsVal.truthy, hempty]
      · simp [JsVal.truthy, JsVal.typeofString, JsVal.asStr, hs]
    | undefined => simp [JsVal.truthy]
    | null => simp [JsVal.truthy]
    | bool b => simp [JsVal.typeofString]
    | arr xs => simp [JsVal.typeofString]
    | num q => simp [JsVal.typeofString]
    | obj fields => simp [JsVal.typeofString]
  · have h1 : d.isStr "delivery" = false := by
      cases h : d.isStr "delivery" with
      | false => rfl
      | true => exact absurd (hd.mp h) hdd
    simp [h1, hdd]

theorem passesValidation_iff (body : OrderBody) :
    passesValidation body = true ↔
      ((∃ xs, body.items = JsVal.arr xs ∧ xs ≠ []) ∧
       (∃ q, body.total = JsVal.num q ∧ q ≠ 0) ∧
       (body.deliveryOption = JsVal.str "delivery" ∨
         body.deliveryOption = JsVal.str "takeaway") ∧
       (body.paymentOption = JsVal.str "online" ∨ body.paymentOption = JsVal.str "cod") ∧
       (∃ p, body.phoneNumber = JsVal.str p ∧ p ≠ "") ∧
       (body.deliveryOption = JsVal.str "delivery" →
         ∃ a, body.address = JsVal.str a ∧ jsTrim a ≠ "")) := by
  unfold passesValidation
  rw [Bool.and_eq_true, Bool.and_eq_true, Bool.and_eq_true, Bool.and_eq_true,
    Bool.and_eq_true, items_guard_iff, total_guard_iff,
    option_guard_iff "delivery" "takeaway" (by decide) (by decide),
    option_guard_iff "online" "cod" (by decide) (by decide), phone_guard_iff,
    address_guard_iff]
  constructor
  · rintro ⟨⟨⟨⟨⟨h1, h2⟩, h3⟩, h4⟩, h5⟩, h6⟩
    exact ⟨h1, h2, h3, h4, h5, h6⟩
  · rintro ⟨h1, h2, h3, h4, h5, h6⟩
    exact ⟨⟨⟨⟨⟨h1, h2⟩, h3⟩, h4⟩, h5⟩, h6⟩

theorem placeOrder_status_ne_400 (env : Env) (userId : Option String) (body : OrderBody)
    (w : World) : (placeOrder env userId body w).res.status ≠ 400 := by
  unfold placeOrder User.findOne Order.save User.findOneAndUpdate
  cases env.storeFault 0 with
  | some e => simp [createOrderFailed]
  | none =>
    cases w.users.find? (fun u => some u.clerkId == userId) with
    | none => simp [reject]
    | some user =>
      cases env.storeFault 1 with
      | some e => simp [createOrderFailed]
      | none =>
        cases env.storeFault 2 with
        | some e => simp [createOrderFailed]
        | none =>
          dsimp only
          cases w.users.find? (fun u => some u.clerkId == userId) with
          | none => simp [createOrderFailed]
          | some user2 => simp

theorem createOrder_400_iff (env : Env) (userId : Option String) (body : OrderBody)
    (w : World) :
    (createOrder env userId body w).res.status = 400 ↔ passesValidation body = false := by
  constructor
  · intro h
    cases hv : passesValidation body with
    | false => rfl
    | true =>
      rw [createOrder_of_passes hv] at h
      exact absurd h (placeOrder_status_ne_400 env userId body w)
  · intro hv
    obtain ⟨error, he⟩ := createOrder_of_not_passes env userId w hv
    rw [he]
    rfl

/-- C14, as stated, fails: the sample request with total 0 meets every listed
precondition (0 is a number) and is answered 400; so is the sample request whose phone
is present and non-empty but sent as a number. -/
theorem createOrder_rejects_zero_total :
    meetsListedPreconditions sampleZeroTotalBody = true ∧
    (createOrder sampleEnv (some "user_1") sampleZeroTotalBody sampleWorld).res.status
      = 400 ∧
    meetsListedPreconditions sampleNumericPhoneBody = true ∧
    (createOrder sampleEnv (some "user_1") sampleNumericPhoneBody sampleWorld).res.status
      = 400 := by
  refine ⟨by decide, by decide, by decide, by decide⟩

/-- C14, amended: `createOrder` answers 400 exactly when the request is not of this
form: `items` is a non-empty array, `total` is a number other than 0, `deliveryOption`
is `'delivery'` or `'takeaway'`, `paymentOption` is `'online'` or `'cod'`,
`phoneNumber` is a non-empty string, and, when `deliveryOption` is `'delivery'`,
`address` is a string that `trim` does not empty. Every request of this form passes
validation, whatever the environment, the caller and the stores are. -/
theorem createOrder_rejects_iff (env : Env) (userId : Option String) (body : OrderBody)
    (w : World) :
    (createOrder env userId body w).res.status = 400 ↔
      ¬ ((∃ xs, body.items = JsVal.arr xs ∧ xs ≠ []) ∧
         (∃ q, body.total = JsVal.num q ∧ q ≠ 0) ∧
         (body.deliveryOption = JsVal.str "delivery" ∨
           body.deliveryOption = JsVal.str "takeaway") ∧
         (body.paymentOption = JsVal.str "online" ∨
           body.paymentOption = JsVal.str "cod") ∧
         (∃ p, body.phoneNumber = JsVal.str p ∧ p ≠ "") ∧
         (body.deliveryOption = JsVal.str "delivery" →
           ∃ a, body.address = JsVal.str a ∧ jsTrim a ≠ "")) := by
  rw [createOrder_400_iff, ← passesValidation_iff]
  cases passesValidation body <;> simp

/-! ## Cart: what is appended -/

theorem newLines_ne_nil {cart : List CartItem} {items : List JsVal}
    (h : ∃ item ∈ items, ∀ line ∈ cart, line.barcode ≠ (item.get "barcode").asNum) :
    newLines cart items ≠ [] := by
  obtain ⟨item, hitem, habs⟩ := h
  have hany : cart.any
      (fun existingItem => existingItem.barcode == (item.get "barcode").asNum) = false := by
    rw [List.any_eq_false]
    intro line hline
    simpa using habs line hline
  intro hnil
  have hmem : ({ barcode := (item.get "barcode").asNum } : CartItem) ∈ newLines cart items := by
    unfold newLines
    rw [List.mem_filterMap]
    exact ⟨item, hitem, by rw [hany]; rfl⟩
  rw [hnil] at hmem
  exact absurd hmem (List.not_mem_nil _)

/-- C15: for an existing account, named by a non-empty email, with cart `C`, and a
non-empty `cartItems` array whose entries all carry a numeric `barcode`, at least one
of them a barcode that no line of `C` carries, with no store call rejecting:
`updateCart` answers 200 and the cart of the account afterwards is `C` followed by
`newLines C cartItems`, that is, in request order, one line `{ barcode }` for each
entry whose barcode no line of `C` carries. The lines of `C` stay in place, and an
entry whose barcode is in `C` adds nothing. The other fields of the account are
unchanged, and the response carries the updated account. -/
theorem updateCart_appends_missing (env : Env) (body : CartBody) (w : World)
    (user : User) (items : List JsVal)
    (hi : body.cartItems = JsVal.arr items) (hne : items ≠ [])
    (hnum : ∀ item ∈ items, ∃ q, item.get "barcode" = JsVal.num q)
    (he : isSet body.email = true) (hu : accountByEmail w body.email = some user)
    (hs : ∀ k, env.storeFault k = none)
    (hnew : ∃ item ∈ items,
      ∀ line ∈ user.cartItem, line.barcode ≠ (item.get "barcode").asNum) :
    (updateCart env body w).res.status = 200 ∧
    (updateCart env body w).res.body
      = Body.messageUser "Cart updated successfully"
          (some { user with cartItem := user.cartItem ++ newLines user.cartItem items }) ∧
    accountByEmail (updateCart env body w).world body.email
      = some { user with cartItem := user.cartItem ++ newLines user.cartItem items } ∧
    (∀ line ∈ newLines user.cartItem items,
      ∀ existing ∈ user.cartItem, existing.barcode ≠ line.barcode) := by
  have h1 := @updateCart_lines env body w user items hi hne hnum he hu hs
  have hl : ¬ ((newLines user.cartItem items).length == 0) = true := by
    simpa using newLines_ne_nil hnew
  rw [if_neg hl] at h1
  rw [h1]
  refine ⟨rfl, rfl, accountByEmail_cartAppended hu, ?_⟩
  intro line hline existing hex heq
  unfold newLines at hline
  rw [List.mem_filterMap] at hline
  obtain ⟨item, _, hitem⟩ := hline
  by_cases hany : user.cartItem.any
      (fun existingItem => existingItem.barcode == (item.get "barcode").asNum) = true
  · rw [if_pos hany] at hitem
    exact absurd hitem (by simp)
  · rw [if_neg hany] at hitem
    have hl2 : line = { barcode := (item.get "barcode").asNum } := (Option.some.inj hitem).symm
    apply hany
    rw [List.any_eq_true]
    exact ⟨existing, hex, by simp [heq, hl2]⟩

/-- Witness for C15: the sample account, whose cart holds 123 and 456, is sent the
lines 123, 789, 789; the barcode 789 is not in the cart. -/
theorem updateCart_appends_missing_witness :
    sampleCartBody.cartItems = JsVal.arr sampleCartItems ∧
    sampleCartItems ≠ [] ∧
    (∀ item ∈ sampleCartItems, ∃ q, item.get "barcode" = JsVal.num q) ∧
    isSet sampleCartBody.email = true ∧
    accountByEmail sampleWorld sampleCartBody.email = some sampleUser ∧
    (∃ item ∈ sampleCartItems,
      ∀ line ∈ sampleUser.cartItem, line.barcode ≠ (item.get "barcode").asNum) ∧
    (updateCart sampleEnv sampleCartBody sampleWorld).res.status = 200 ∧
    accountByEmail (updateCart sampleEnv sampleCartBody sampleWorld).world
        sampleCartBody.email
      = some { sampleUser with
               cartItem := sampleUser.cartItem ++ newLines sampleUser.cartItem sampleCartItems } :=
  have hnum : ∀ item ∈ sampleCartItems, ∃ q, item.get "barcode" = JsVal.num q := by
    intro item hm
    simp only [sampleCartItems, List.mem_cons, List.mem_singleton, List.not_mem_nil,
      or_false] at hm
    rcases hm with rfl | rfl | rfl <;> exact ⟨_, rfl⟩
  have hnew : ∃ item ∈ sampleCartItems,
      ∀ line ∈ sampleUser.cartItem, line.barcode ≠ (item.get "barcode").asNum :=
    ⟨JsVal.obj [("barcode", JsVal.num 789)], by simp [sampleCartItems], by
      intro line hline
      simp only [sampleUser, List.mem_cons, List.mem_singleton, List.not_mem_nil,
        or_false] at hline
      rcases hline with rfl | rfl <;> decide⟩
  have h := updateCart_appends_missing sampleEnv sampleCartBody sampleWorld sampleUser
    sampleCartItems rfl (by simp [sampleCartItems]) hnum (by decide) (by decide)
    (fun _ => rfl) hnew
  ⟨rfl, by simp [sampleCartItems], hnum, by decide, by decide, hnew, h.1, h.2.2.1⟩

/-! ## Order creation: coins -/

theorem isDouble_250 : isDouble 250 :=
  ⟨250, 0, by norm_num, by norm_num, by norm_num, by norm_num⟩

theorem floor_div100_250 : Math.floor (JsNum.fin 250).div100 = JsNum.fin 2 := by
  rw [floor_div100_exact isDouble_250 (by norm_num) (by norm_num) (by norm_num)]
  norm_num

theorem floor_div100_huge :
    Math.floor (JsNum.fin 900719925474099328).div100 = JsNum.fin 9007199254740994 := by
  have h : roundToPrecision ((900719925474099328 : ℚ) / 100) = 9007199254740994 := by
    rw [@roundToPrecision_eq _ 1 (by norm_num) (by norm_num) (by norm_num) (by norm_num)]
    unfold roundHalfEven
    norm_num
  have habs : |roundToPrecision ((900719925474099328 : ℚ) / 100)| < 2 ^ 1024 := by
    rw [h]
    norm_num
  rw [div100_fin, roundDouble_of_abs_lt habs, h, floor_fin]
  norm_num

theorem isDouble_sextillion : isDouble 1000000000000000000000 :=
  ⟨476837158203125, 21, by norm_num, by norm_num, by norm_num, by norm_num⟩

theorem floor_div100_sextillion :
    Math.floor (JsNum.fin 1000000000000000000000).div100
      = JsNum.fin 10000000000000000000 := by
  have hd : isDouble ((1000000000000000000000 : ℚ) / 100) :=
    ⟨19073486328125, 19, by norm_num, by norm_num, by norm_num, by norm_num⟩
  rw [div100_fin, roundDouble_of_isDouble hd, floor_fin]
  norm_num

theorem inc_seven_ten_quintillion :
    (JsNumber.of (JsNum.fin 7)).inc (JsNum.fin 10000000000000000000)
      = JsNumber.of (JsNum.fin 10000000000000000000) := by
  have h : roundToPrecision ((7 : ℚ) + 10000000000000000000) = 10000000000000000000 := by
    rw [@roundToPrecision_eq _ 11 (by norm_num) (by norm_num) (by norm_num) (by norm_num)]
    unfold roundHalfEven
    norm_num
  have habs : |roundToPrecision ((7 : ℚ) + 10000000000000000000)| < 2 ^ 1024 := by
    rw [h]
    norm_num
  rw [inc_fin_fin, roundDouble_of_abs_lt habs, h]

/-- C1, as stated, fails on doubles. The total 900719925474099328 is a double and is
accepted; the quotient by 100 rounds up to 9007199254740994, which the response
carries as `coinsEarned`, while `floor(total / 100)` is 9007199254740993. The total
10 ^ 21 is accepted for the sample account with 7 coins and leaves it with 10 ^ 19
coins, not 7 + 10 ^ 19. The total `Infinity`, which the text `1e999` is read as, is
accepted and the response carries `coinsEarned` as `null`. -/
theorem createOrder_rounds_coins :
    (isDouble 900719925474099328 ∧
      (createOrder sampleEnv (some "user_1") sampleHugeBody sampleWorld).res.status = 201 ∧
      (createOrder sampleEnv (some "user_1") sampleHugeBody sampleWorld).res.body.coinsEarned?
        = some (JsVal.num (JsNum.fin 9007199254740994)) ∧
      ⌊(900719925474099328 : ℚ) / 100⌋ = 9007199254740993) ∧
    (isDouble 1000000000000000000000 ∧
      accountOf sampleWorld (some "user_1") = some sampleUser ∧
      sampleUser.coins = JsNumber.of (JsNum.fin 7) ∧
      (createOrder sampleEnv (some "user_1") sampleSextillionBody sampleWorld).res.status
        = 201 ∧
      (accountOf
          (createOrder sampleEnv (some "user_1") sampleSextillionBody sampleWorld).world
          (some "user_1")).map (fun u => u.coins)
        = some (JsNumber.of (JsNum.fin 10000000000000000000)) ∧
      (7 : ℚ) + ⌊(1000000000000000000000 : ℚ) / 100⌋ ≠ 10000000000000000000) ∧
    ((createOrder sampleEnv (some "user_1") sampleInfiniteBody sampleWorld).res.status = 201 ∧
      (createOrder sampleEnv (some "user_1") sampleInfiniteBody sampleWorld).res.body.coinsEarned?
        = some JsVal.null) := by
  have hu : accountOf sampleWorld (some "user_1") = some sampleUser := by decide
  refine ⟨⟨⟨7036874417766401, 7, by norm_num, by norm_num, by norm_num, by norm_num⟩,
      ?_, ?_, by norm_num⟩,
    ⟨isDouble_sextillion, hu, rfl, ?_, ?_, by norm_num⟩, ?_, ?_⟩
  · rw [createOrder_of_passes (by decide), placeOrder_of_account hu rfl rfl rfl]
    rfl
  · rw [createOrder_of_passes (by decide), placeOrder_of_account hu rfl rfl rfl]
    have hf : Math.floor sampleHugeBody.total.asNum.div100 = JsNum.fin 9007199254740994 :=
      floor_div100_huge
    simp only [orderPlaced, Body.coinsEarned?, hf, jsonOfNum]
  · rw [createOrder_of_passes (by decide), placeOrder_of_account hu rfl rfl rfl]
    rfl
  · rw [createOrder_of_passes (by decide), placeOrder_of_account hu rfl rfl rfl,
      accountOf_orderPlaced hu]
    have hf : Math.floor sampleSextillionBody.total.asNum.div100
        = JsNum.fin 10000000000000000000 := floor_div100_sextillion
    have hc : sampleUser.coins = JsNumber.of (JsNum.fin 7) := rfl
    simp only [Option.map_some', clearCartAndCredit, hf, hc, inc_seven_ten_quintillion]
  · rw [createOrder_of_passes (by decide), placeOrder_of_account hu rfl rfl rfl]
    rfl
  · rw [createOrder_of_passes (by decide), placeOrder_of_account hu rfl rfl rfl]
    rfl

/-- C1, amended: when `createOrder` answers 201, the request carried a numeric `total`
and the account of the caller exists; the `coinsEarned` field of the response is
`Math.floor(total / 100)` computed on doubles (written `null` when it is an infinity),
and the coins balance of the account after the call is the double sum of its balance
before the call and that value. When `total` is a double between -10 ^ 15 and
10 ^ 15 that is not a negative number above -2 ^ (-1000), the field is exactly
`floor(total / 100)`, and when moreover the balance before the call is an integer of
magnitude at most 10 ^ 15, the balance after the call is exactly the balance before
plus that amount. -/
theorem createOrder_coinsEarned (env : Env) (userId : Option String) (body : OrderBody)
    (w : World) (h : (createOrder env userId body w).res.status = 201) :
    ∃ (total : JsNum) (before after : User),
      body.total = JsVal.num total ∧
      accountOf w userId = some before ∧
      (createOrder env userId body w).res.body.coinsEarned?
        = some (jsonOfNum (Math.floor total.div100)) ∧
      accountOf (createOrder env userId body w).world userId = some after ∧
      after.coins = before.coins.inc (Math.floor total.div100) ∧
      (∀ t : ℚ, total = JsNum.fin t → isDouble t → -10 ^ 15 ≤ t → t ≤ 10 ^ 15 →
        (t < 0 → t ≤ -(2 : ℚ) ^ (-1000 : ℤ)) →
        (createOrder env userId body w).res.body.coinsEarned?
          = some (JsVal.num (JsNum.fin ⌊t / 100⌋)) ∧
        ∀ n : ℤ, before.coins = JsNumber.of (JsNum.fin n) → |n| ≤ 10 ^ 15 →
          after.coins = JsNumber.of (JsNum.fin ((n + ⌊t / 100⌋ : ℤ) : ℚ))) := by
  obtain ⟨user, hv, hu, hc⟩ := createOrder_created h
  obtain ⟨total, htotal, _⟩ := ((passesValidation_iff body).mp hv).2.1
  have hasNum : body.total.asNum = total := by rw [htotal]; rfl
  have hfield : (createOrder env userId body w).res.body.coinsEarned?
      = some (jsonOfNum (Math.floor total.div100)) := by
    rw [hc, ← hasNum]
    rfl
  have hafter : accountOf (createOrder env userId body w).world userId
      = some (clearCartAndCredit (Math.floor total.div100) user) := by
    rw [hc, accountOf_orderPlaced hu, hasNum]
  refine ⟨total, user, clearCartAndCredit (Math.floor total.div100) user, htotal, hu,
    hfield, hafter, rfl, ?_⟩
  intro t ht hd hlo hhi hneg
  have hexact := floor_div100_exact hd hlo hhi hneg
  subst ht
  refine ⟨by rw [hfield, hexact]; rfl, ?_⟩
  intro n hn hnabs
  have hk1 : (-10 ^ 13 : ℤ) ≤ ⌊t / 100⌋ := by
    rw [Int.le_floor]
    push_cast
    have h1 : (-10 ^ 15 : ℚ) / 100 ≤ t / 100 := by gcongr
    linarith [show (-10 ^ 15 : ℚ) / 100 = -10 ^ 13 by norm_num]
  have hk2 : ⌊t / 100⌋ ≤ (10 ^ 13 : ℤ) := by
    have h1 : ((⌊t / 100⌋ : ℤ) : ℚ) ≤ t / 100 := Int.floor_le _
    have h2 : t / 100 ≤ (10 ^ 15 : ℚ) / 100 := by gcongr
    have h3 : ((⌊t / 100⌋ : ℤ) : ℚ) ≤ ((10 ^ 13 : ℤ) : ℚ) := by
      push_cast
      linarith [show (10 ^ 15 : ℚ) / 100 = 10 ^ 13 by norm_num]
    exact_mod_cast h3
  have hsum : |n + ⌊t / 100⌋| ≤ 2 ^ 53 := by
    rw [abs_le] at hnabs ⊢
    constructor <;> omega
  simp only [clearCartAndCredit, hn, hexact]
  exact inc_exact n ⌊t / 100⌋ hsum

/-- Witness for the amended C1: the sample request, total 250, is accepted for the
sample account with 7 coins; the response carries `coinsEarned` 2 and the account is
left with 9 coins. -/
theorem createOrder_coinsEarned_witness :
    (createOrder sampleEnv (some "user_1") sampleBody sampleWorld).res.status = 201 ∧
    (createOrder sampleEnv (some "user_1") sampleBody sampleWorld).res.body.coinsEarned?
      = some (JsVal.num (JsNum.fin 2)) ∧
    (accountOf (createOrder sampleEnv (some "user_1") sampleBody sampleWorld).world
      (some "user_1")).map (fun u => u.coins) = some (JsNumber.of (JsNum.fin 9)) := by
  have h201 : (createOrder sampleEnv (some "user_1") sampleBody sampleWorld).res.status
      = 201 := by decide
  obtain ⟨total, before, after, htotal, hbefore, _, hafter, _, hexact⟩ :=
    createOrder_coinsEarned sampleEnv (some "user_1") sampleBody sampleWorld h201
  have ht : total = JsNum.fin 250 := (JsVal.num.inj htotal).symm
  have hb : before = sampleUser :=
    (Option.some.inj (hbefore.symm.trans (by decide : accountOf sampleWorld (some "user_1")
      = some sampleUser)))
  obtain ⟨hfield, hcoins⟩ := hexact 250 ht isDouble_250 (by norm_num) (by norm_num)
    (by norm_num)
  have hfl : ⌊(250 : ℚ) / 100⌋ = 2 := by norm_num
  refine ⟨h201, ?_, ?_⟩
  · rw [hfield, hfl]
    norm_num
  · have h7 : before.coins = JsNumber.of (JsNum.fin ((7 : ℤ) : ℚ)) := by
      rw [hb]
      norm_num [sampleUser]
      rfl
    rw [hafter, Option.map_some', hcoins 7 h7 (by norm_num), hfl]
    norm_num

/-! ## Order creation: the stored address and status -/

/-- C4, as stated, fails: the sample takeaway request with total 0 and an address meets
the preconditions the specification lists for order creation (0 is a number), the
account exists and no store call rejects, yet `createOrder` answers 400 and stores
nothing. -/
theorem createOrder_takeaway_zero_total_rejected :
    sampleFreeTakeawayBody.deliveryOption = JsVal.str "takeaway" ∧
    meetsListedPreconditions sampleFreeTakeawayBody = true ∧
    accountOf sampleWorld (some "user_1") = some sampleUser ∧
    (∀ k, sampleEnv.storeFault k = none) ∧
    (createOrder sampleEnv (some "user_1") sampleFreeTakeawayBody sampleWorld).res.status
      = 400 ∧
    (createOrder sampleEnv (some "user_1") sampleFreeTakeawayBody sampleWorld).world
      = sampleWorld := by
  obtain ⟨error, he⟩ := createOrder_of_not_passes sampleEnv (some "user_1") sampleWorld
    (by decide : passesValidation sampleFreeTakeawayBody = false)
  rw [he]
  exact ⟨rfl, by decide, by decide, fun _ => rfl, rfl, rfl⟩

/-- C4, amended: a request that passes the validation of `createOrder` (`items` a
non-empty array, `total` a number other than 0, `deliveryOption` `'delivery'` or
`'takeaway'`, `paymentOption` `'online'` or `'cod'`, `phoneNumber` a non-empty string
and, for a delivery, `address` a string that `trim` does not empty), for an existing
account and with no store call rejecting, is answered 201; the order in the response is
the one appended to the order store, its status is `'pending'`, its address is exactly
`"Store Pickup"` when `deliveryOption` is `'takeaway'` (whatever `address` holds), and
is the supplied address string, unchanged, when `deliveryOption` is `'delivery'`. -/
theorem createOrder_stored_address (env : Env) (userId : Option String)
    (body : OrderBody) (w : World) (user : User)
    (hitems : ∃ xs, body.items = JsVal.arr xs ∧ xs ≠ [])
    (htotal : ∃ q, body.total = JsVal.num q ∧ q ≠ 0)
    (hmode : body.deliveryOption = JsVal.str "delivery" ∨
      body.deliveryOption = JsVal.str "takeaway")
    (hpay : body.paymentOption = JsVal.str "online" ∨ body.paymentOption = JsVal.str "cod")
    (hphone : ∃ p, body.phoneNumber = JsVal.str p ∧ p ≠ "")
    (haddr : body.deliveryOption = JsVal.str "delivery" →
      ∃ a, body.address = JsVal.str a ∧ jsTrim a ≠ "")
    (hu : accountOf w userId = some user)
    (hs : ∀ k, env.storeFault k = none) :
    (createOrder env userId body w).res.status = 201 ∧
    ∃ order,
      (createOrder env userId body w).res.body.order? = some order ∧
      (createOrder env userId body w).world.orders = w.orders ++ [order] ∧
      order.status = "pending" ∧
      (body.deliveryOption = JsVal.str "takeaway" → order.address = "Store Pickup") ∧
      (body.deliveryOption = JsVal.str "delivery" →
        body.address = JsVal.str order.address) := by
  have hv : passesValidation body = true :=
    (passesValidation_iff body).mpr ⟨hitems, htotal, hmode, hpay, hphone, haddr⟩
  rw [createOrder_of_passes hv, placeOrder_of_account hu (hs 0) (hs 1) (hs 2)]
  refine ⟨rfl, newOrder env userId user body, rfl, rfl, rfl, ?_, ?_⟩
  · intro hd
    simp [newOrder, hd, JsVal.isStr]
  · intro hd
    obtain ⟨a, ha, _⟩ := haddr hd
    simp [newOrder, hd, ha, JsVal.isStr, JsVal.asStr]

/-- Witness for the amended C4, the example of the specification: one item, total 250,
takeaway, cash on delivery, phone `"9876543210"` and no address. The request is
answered 201 with `coinsEarned` 2, address `"Store Pickup"` and status `'pending'`. -/
theorem createOrder_stored_address_witness :
    accountOf sampleWorld (some "user_1") = some sampleUser ∧
    (∀ k, sampleEnv.storeFault k = none) ∧
    (createOrder sampleEnv (some "user_1") sampleBody sampleWorld).res.status = 201 ∧
    (createOrder sampleEnv (some "user_1") sampleBody sampleWorld).res.body.coinsEarned?
      = some (JsVal.num (JsNum.fin 2)) ∧
    ∃ order,
      (createOrder sampleEnv (some "user_1") sampleBody sampleWorld).res.body.order?
        = some order ∧
      (createOrder sampleEnv (some "user_1") sampleBody sampleWorld).world.orders
        = sampleWorld.orders ++ [order] ∧
      order.status = "pending" ∧
      order.address = "Store Pickup" := by
  have hu : accountOf sampleWorld (some "user_1") = some sampleUser := by decide
  have h := createOrder_stored_address sampleEnv (some "user_1") sampleBody sampleWorld
    sampleUser ⟨_, rfl, by simp⟩ ⟨_, rfl, by decide⟩ (Or.inr rfl) (Or.inr rfl)
    ⟨_, rfl, by decide⟩ (fun hd => absurd hd (by simp [sampleBody])) hu (fun _ => rfl)
  obtain ⟨h201, order, ho, hw, hst, htake, _⟩ := h
  refine ⟨hu, fun _ => rfl, h201, ?_, order, ho, hw, hst, htake rfl⟩
  rw [createOrder_of_passes (by decide), placeOrder_of_account hu rfl rfl rfl]
  have hf : Math.floor sampleBody.total.asNum.div100 = JsNum.fin 2 := floor_div100_250
  simp only [orderPlaced, Body.coinsEarned?, hf, jsonOfNum]

/-! ## Order creation: the coins balance and the sign of the total -/

theorem floor_div100_neg250 : Math.floor (JsNum.fin (-250)).div100 = JsNum.fin (-3) := by
  have hd : isDouble (-250) := ⟨-250, 0, by norm_num, by norm_num, by norm_num, by norm_num⟩
  rw [floor_div100_exact hd (by norm_num) (by norm_num) (fun _ => by norm_num)]
  norm_num

/-- C11, as stated, fails: the sample account holds 7 coins, a non-negative integer;
the request with total -250 is accepted with 201, `Math.floor(-250 / 100)` is -3, and
the account is left with 4 coins, fewer than before. -/
theorem createOrder_negative_total_lowers_coins :
    sampleUser.coins = JsNumber.of (JsNum.fin ((7 : ℕ) : ℚ)) ∧
    accountOf sampleWorld (some "user_1") = some sampleUser ∧
    (createOrder sampleEnv (some "user_1") sampleNegativeBody sampleWorld).res.status = 201 ∧
    ∃ after,
      accountOf (createOrder sampleEnv (some "user_1") sampleNegativeBody sampleWorld).world
        (some "user_1") = some after ∧
      after.coins = JsNumber.of (JsNum.fin 4) ∧
      ¬ sampleUser.coins.le after.coins := by
  have hu : accountOf sampleWorld (some "user_1") = some sampleUser := by decide
  have h7 : sampleUser.coins = JsNumber.of (JsNum.fin ((7 : ℕ) : ℚ)) := by
    norm_num [sampleUser]
    rfl
  have hf : Math.floor sampleNegativeBody.total.asNum.div100 = JsNum.fin (-3) :=
    floor_div100_neg250
  have hinc : (JsNumber.of (JsNum.fin ((7 : ℕ) : ℚ))).inc (JsNum.fin (-3))
      = JsNumber.of (JsNum.fin 4) := by
    have h := inc_exact 7 (-3) (by norm_num)
    norm_num at h ⊢
    exact h
  refine ⟨h7, hu, by decide, ?_⟩
  rw [createOrder_of_passes (by decide), placeOrder_of_account hu rfl rfl rfl,
    accountOf_orderPlaced hu]
  have hcoins : (clearCartAndCredit (Math.floor sampleNegativeBody.total.asNum.div100)
      sampleUser).coins = JsNumber.of (JsNum.fin 4) := by
    simp only [clearCartAndCredit, hf, h7, hinc]
  refine ⟨_, rfl, hcoins, ?_⟩
  rw [hcoins, h7]
  show ¬ (((7 : ℕ) : ℚ) ≤ 4)
  norm_num

/-- C11, amended: when `createOrder` answers 201 for an account whose coins balance is
a non-negative integer (a double), the balance after the call is an integer or an
infinity; it is an integer whenever the total is a finite double and the balance
before the call is at most 10 ^ 300; and when the total is not negative, the balance
after the call is greater than or equal to the balance before the call. -/
theorem createOrder_coins_not_lowered (env : Env) (userId : Option String)
    (body : OrderBody) (w : World) (before : User) (n : ℕ)
    (h : (createOrder env userId body w).res.status = 201)
    (hb : accountOf w userId = some before)
    (hn : before.coins = JsNumber.of (JsNum.fin (n : ℚ)))
    (hd : isDouble (n : ℚ)) :
    ∃ after : User,
      accountOf (createOrder env userId body w).world userId = some after ∧
      ((∃ z : ℤ, after.coins = JsNumber.of (JsNum.fin z)) ∨
        after.coins = JsNumber.of JsNum.posInf ∨
        after.coins = JsNumber.of JsNum.negInf) ∧
      (∀ t : ℚ, body.total = JsVal.num (JsNum.fin t) → isDouble t → (n : ℚ) ≤ 10 ^ 300 →
        ∃ z : ℤ, after.coins = JsNumber.of (JsNum.fin z)) ∧
      ((JsNum.fin 0).le body.total.asNum → before.coins.le after.coins) := by
  obtain ⟨user, _, hu, hc⟩ := createOrder_created h
  have hub : user = before := Option.some.inj (hu.symm.trans hb)
  subst hub
  have hafter : accountOf (createOrder env userId body w).world userId
      = some (clearCartAndCredit (Math.floor body.total.asNum.div100) user) := by
    rw [hc, accountOf_orderPlaced hu]
  have hcoins : (clearCartAndCredit (Math.floor body.total.asNum.div100) user).coins
      = (JsNumber.of (JsNum.fin ((n : ℤ) : ℚ))).inc (Math.floor body.total.asNum.div100) := by
    simp only [clearCartAndCredit, hn]
    rfl
  refine ⟨_, hafter, ?_, ?_, ?_⟩
  · rw [hcoins]
    exact inc_integer n (floor_div100_integer _)
  · intro t ht hdt hle
    have hasNum : body.total.asNum = JsNum.fin t := by rw [ht]; rfl
    simp only [clearCartAndCredit, hn, hasNum]
    exact inc_floor_div100_finite hdt hle
  · intro hpos
    simp only [clearCartAndCredit, hn]
    exact le_inc hd (floor_div100_nonneg hpos)

/-- Witness for the amended C11: the sample request, total 250, for the sample account
with 7 coins. -/
theorem createOrder_coins_not_lowered_witness :
    (createOrder sampleEnv (some "user_1") sampleBody sampleWorld).res.status = 201 ∧
    accountOf sampleWorld (some "user_1") = some sampleUser ∧
    sampleUser.coins = JsNumber.of (JsNum.fin ((7 : ℕ) : ℚ)) ∧
    isDouble ((7 : ℕ) : ℚ) ∧
    ∃ after : User,
      accountOf (createOrder sampleEnv (some "user_1") sampleBody sampleWorld).world
        (some "user_1") = some after ∧
      ((∃ z : ℤ, after.coins = JsNumber.of (JsNum.fin z)) ∨
        after.coins = JsNumber.of JsNum.posInf ∨
        after.coins = JsNumber.of JsNum.negInf) ∧
      sampleUser.coins.le after.coins :=
  have h7 : sampleUser.coins = JsNumber.of (JsNum.fin ((7 : ℕ) : ℚ)) := by
    norm_num [sampleUser]
    rfl
  have hd : isDouble ((7 : ℕ) : ℚ) :=
    ⟨7, 0, by norm_num, by norm_num, by norm_num, by norm_num⟩
  have h201 : (createOrder sampleEnv (some "user_1") sampleBody sampleWorld).res.status
      = 201 := by decide
  have hu : accountOf sampleWorld (some "user_1") = some sampleUser := by decide
  have hpos : (JsNum.fin 0).le sampleBody.total.asNum := by
    show (0 : ℚ) ≤ 250
    norm_num
  ⟨h201, hu, h7, hd,
    (createOrder_coins_not_lowered sampleEnv (some "user_1") sampleBody sampleWorld
      sampleUser 7 h201 hu h7 hd).imp
      (fun _ hafter => ⟨hafter.1, hafter.2.1, hafter.2.2.2 hpos⟩)⟩

end B3
